import Mathlib

/-!
# OTA firmware update handler of `main/http_server.c`

A shallow embedding of `http_server_OTA_update_handler`, of the monitor task
`http_server_monitor` and of `http_server_fw_update_reset_timer`, followed by
theorems about them.

The C function talks to the platform (HTTP server, OTA flash API, message
queue).  Every platform call is recorded as an `Event`; what the platform
answers is read from a `Platform` record, so a run of the handler is a pure
function from a `Platform` to the list of calls it makes and its return value.

Machine integers are `Int`/`Nat` with explicit 32-bit wrap-around (`wrap32`,
`to_u32`); the target is a 32-bit core, `int`, `size_t` and pointers are 32 bits
wide.
-/

namespace HttpServer

/-! ## Platform constants -/

/-- Value of `ESP_OK` in `esp_err.h`. -/
def ESP_OK : Int := 0

/-- Value of `ESP_FAIL` in `esp_err.h`. -/
def ESP_FAIL : Int := -1

/-- Value of `HTTPD_SOCK_ERR_TIMEOUT` in `esp_http_server.h`. -/
def HTTPD_SOCK_ERR_TIMEOUT : Int := -3

/-- Value of `HTTPD_SOCK_ERR_FAIL` in `esp_http_server.h`. -/
def HTTPD_SOCK_ERR_FAIL : Int := -1

/-- The expression `sizeof(ota_buff)` for `char ota_buff[1024]`. -/
def sizeof_ota_buff : Nat := 1024

/-- Carriage return. -/
def CR : Nat := 13

/-- Line feed. -/
def LF : Nat := 10

/-- The string literal given to `strstr` in the handler: `"\r\n\r"`. -/
def needle : List Nat := [CR, LF, CR]

/-- The four-byte end-of-headers marker CR LF CR LF of a multipart body. -/
def CRLFCRLF : List Nat := [CR, LF, CR, LF]

/-! ## Machine arithmetic -/

/-- Conversion to a 32-bit signed `int` (two's complement wrap-around). -/
def wrap32 (x : Int) : Int := (x + 2147483648) % 4294967296 - 2147483648

/-- Conversion to a 32-bit unsigned value (`size_t`, `unsigned`). -/
def to_u32 (x : Int) : Nat := (x % 4294967296).toNat

/-- The macro `MIN(a, b)` of `sys/param.h`, `((a) < (b)) ? (a) : (b)`, used with an
`int` and a `size_t`: the comparison is made on the unsigned conversions, and the
result is a `size_t`. -/
def MIN (a : Int) (b : Nat) : Nat :=
  if to_u32 a < to_u32 b then to_u32 a else to_u32 b

/-! ## Messages and the monitor task -/

/-- Message identifiers handled by `http_server_monitor` (`http_server_message_e`). -/
inductive http_server_message_e
  | HTTP_MSG_WIFI_CONNECT_INIT
  | HTTP_MSG_WIFI_CONNECTED_SUCCESS
  | HTTP_MSG_WIFI_CONNECTED_FAIL
  | HTTP_MSG_WIFI_USER_DISCONNECT
  | HTTP_MSG_OTA_UPDATE_SUCCESSFUL
  | HTTP_MSG_OTA_UPDATE_FAILED
  | HTTP_MSG_OTA_UPDATE_INITIALIZED
  | HTTP_MSG_TIME_SERVICE_INITIALIZED
  deriving DecidableEq, Repr

/-- Values taken by `g_fw_update_status`. -/
inductive ota_update_status
  | OTA_UPDATE_PENDING
  | OTA_UPDATE_SUCESSFUL
  | OTA_UPDATE_FAILED
  deriving DecidableEq, Repr

/-- Values taken by `g_wifi_connect_status`. -/
inductive wifi_connect_status
  | NONE
  | HTTP_WIFI_STATUS_CONNECTING
  | HTTP_WIFI_STATUS_SUCCESS
  | HTTP_WIFI_STATUS_FAILED
  | HTTP_WIFI_STATUS_DISCONNECT
  deriving DecidableEq, Repr

/-- The file-level variables written by the monitor task, with a count of how
many times the `fw_update_reset` timer has been created and started. -/
structure Globals where
  g_wifi_connect_status : wifi_connect_status
  g_is_local_time_set : Bool
  g_fw_update_status : ota_update_status
  fw_update_reset_started : Nat
  deriving DecidableEq, Repr

/-- Initial values of the file-level variables. -/
def Globals.init : Globals :=
  ⟨.NONE, false, .OTA_UPDATE_PENDING, 0⟩

/-- The function `http_server_fw_update_reset_timer`: when the update status is
`OTA_UPDATE_SUCESSFUL` the timer is created and started once, otherwise only a
log line is written. -/
def http_server_fw_update_reset_timer (g : Globals) : Globals :=
  if g.g_fw_update_status = .OTA_UPDATE_SUCESSFUL then
    { g with fw_update_reset_started := g.fw_update_reset_started + 1 }
  else
    g

open http_server_message_e in
/-- One turn of the `while(1)` loop of `http_server_monitor`, for a message
received from the queue. -/
def http_server_monitor_step (g : Globals) (msgID : http_server_message_e) : Globals :=
  match msgID with
  | HTTP_MSG_WIFI_CONNECT_INIT =>
      { g with g_wifi_connect_status := .HTTP_WIFI_STATUS_CONNECTING }
  | HTTP_MSG_WIFI_CONNECTED_SUCCESS =>
      { g with g_wifi_connect_status := .HTTP_WIFI_STATUS_SUCCESS }
  | HTTP_MSG_WIFI_CONNECTED_FAIL =>
      { g with g_wifi_connect_status := .HTTP_WIFI_STATUS_FAILED }
  | HTTP_MSG_WIFI_USER_DISCONNECT =>
      { g with g_wifi_connect_status := .HTTP_WIFI_STATUS_DISCONNECT }
  | HTTP_MSG_OTA_UPDATE_SUCCESSFUL =>
      http_server_fw_update_reset_timer
        { g with g_fw_update_status := .OTA_UPDATE_SUCESSFUL }
  | HTTP_MSG_OTA_UPDATE_FAILED =>
      { g with g_fw_update_status := .OTA_UPDATE_FAILED }
  | HTTP_MSG_OTA_UPDATE_INITIALIZED => g
  | HTTP_MSG_TIME_SERVICE_INITIALIZED =>
      { g with g_is_local_time_set := true }

/-- The monitor task `http_server_monitor` run on the messages of the queue, in
queue order. -/
def http_server_monitor (g : Globals) (queue : List http_server_message_e) : Globals :=
  queue.foldl http_server_monitor_step g

/-! ## Memory and pointers -/

/-- A value of type `char *` in the handler: a position inside `ota_buff`, or an
absolute address (what `NULL + 4` is). -/
inductive Ptr
  | buf (off : Nat)
  | abs (addr : Nat)
  deriving DecidableEq, Repr

/-- The C library function `strstr` on the memory starting at the haystack
pointer: the index of the first place where `needle` occurs before the
terminating NUL, or `none` for a `NULL` result.  Memory past the end of the
modelled list reads as NUL. -/
def strstr (needle : List Nat) : List Nat → Option Nat
  | [] => if needle = [] then some 0 else none
  | b :: rest =>
      if needle.isPrefixOf (b :: rest) then some 0
      else if b = 0 then none
      else (strstr needle rest).map (· + 1)

/-- The pointer `strstr(ota_buff, "\r\n\r") + 4`. -/
def body_start (ota_buff : List Nat) : Ptr :=
  match strstr needle ota_buff with
  | some i => .buf (i + 4)
  | none => .abs ((0 + 4) % 4294967296)

/-- The pointer difference `p - ota_buff`, a 32-bit `ptrdiff_t`. -/
def ptr_diff (ota_buff_addr : Nat) : Ptr → Int
  | .buf off => wrap32 off
  | .abs addr => wrap32 ((addr : Int) - (ota_buff_addr : Int))

/-- The bytes of `ota_buff` after `httpd_req_recv` has stored `stored` at its
start: the rest of the buffer keeps what it held. -/
def store (ota_buff stored : List Nat) : List Nat :=
  stored ++ ota_buff.drop stored.length

/-- The `size` bytes that a reader finds at pointer `p`: known when the whole
range lies in the modelled memory of `ota_buff`. -/
def read_bytes (ota_buff : List Nat) (p : Ptr) (size : Nat) : Option (List Nat) :=
  match p with
  | .buf off =>
      if off + size ≤ ota_buff.length then some ((ota_buff.drop off).take size) else none
  | .abs _ => none

/-! ## The platform and the calls made to it -/

/-- What one call of `httpd_req_recv` does: its return value, and the bytes it
stored at the start of the buffer. -/
structure RecvOutcome where
  ret : Int
  stored : List Nat
  deriving DecidableEq, Repr

/-- A successful read, which stores `bytes` and returns their number. -/
def RecvOutcome.data (bytes : List Nat) : RecvOutcome := ⟨bytes.length, bytes⟩

/-- A failed read, which stores nothing and returns the (negative) `code`. -/
def RecvOutcome.fail (code : Int) : RecvOutcome := ⟨code, []⟩

/-- The read at the end of the stream: returns 0 and stores nothing. -/
def RecvOutcome.eof : RecvOutcome := ⟨0, []⟩

/-- The answers of the platform during one run of the handler.

* `content_len`: the field `req->content_len`;
* `ota_buff_addr`: the address of the local array `ota_buff`;
* `stack`: the bytes found in memory from that address on when the handler
  starts (the array is not initialised);
* `next_update_partition`: the result of `esp_ota_get_next_update_partition`;
* `recvs`: the outcomes of the successive `httpd_req_recv` calls; when the list
  is used up, a read reports the end of the stream;
* `ota_begin_ret`, `ota_begin_handle`: the result of `esp_ota_begin` and the
  handle it stores on success;
* `ota_write_ret k`: the result of the `k`-th call of `esp_ota_write`;
* `ota_end_ret`, `set_boot_ret`: the results of `esp_ota_end` and
  `esp_ota_set_boot_partition`. -/
structure Platform where
  content_len : Nat
  ota_buff_addr : Nat
  stack : List Nat
  next_update_partition : Nat
  recvs : List RecvOutcome
  ota_begin_ret : Int
  ota_begin_handle : Nat
  ota_write_ret : Nat → Int
  ota_end_ret : Int
  set_boot_ret : Int

/-- A call made by the handler, with its arguments and its result.  For
`esp_ota_write`, `bytes` is the content of the range `data .. data + size` when
that range lies in `ota_buff`. -/
inductive Event
  | esp_ota_get_next_update_partition (ret : Nat)
  | httpd_req_recv (buf_len : Nat) (ret : Int)
  | esp_ota_begin (partition : Nat) (ret : Int)
  | esp_ota_write (handle : Option Nat) (data : Ptr) (size : Nat)
      (bytes : Option (List Nat)) (ret : Int)
  | esp_ota_end (handle : Option Nat) (ret : Int)
  | esp_ota_set_boot_partition (partition : Nat) (ret : Int)
  | esp_ota_get_boot_partition
  | http_server_monitor_send_message (msgID : http_server_message_e)
  deriving DecidableEq, Repr

/-! ## The handler -/

/-- The local variables of the handler that live across loop iterations;
`ota_handle` is `none` while the variable is uninitialised, and `writes` counts
the `esp_ota_write` calls made so far. -/
structure Locals where
  ota_buff : List Nat
  content_received : Int
  is_req_body_started : Bool
  ota_handle : Option Nat
  writes : Nat
  deriving DecidableEq, Repr

/-- How the body of the `do ... while` loop is left: by `return`, or by reaching
the loop condition (at the end of the body or through `continue`). -/
inductive Flow
  | ret (code : Int)
  | cond (s : Locals)
  deriving DecidableEq, Repr

/-- The local `content_lenght`: `req->content_len` converted to `int`. -/
def content_lenght (P : Platform) : Int := wrap32 P.content_len

/-- The local `body_part_len`: `recv_len - (body_start_p - ota_buff)`, an `int`. -/
def body_part_len (ota_buff_addr : Nat) (recv_len : Int) (ota_buff : List Nat) : Int :=
  wrap32 (recv_len - ptr_diff ota_buff_addr (body_start ota_buff))

/-- One execution of the body of the `do ... while` loop, for the outcome `r` of
its `httpd_req_recv` call. -/
def loop_body (P : Platform) (r : RecvOutcome) (s : Locals) : List Event × Flow :=
  let recv := Event.httpd_req_recv (MIN (content_lenght P) sizeof_ota_buff) r.ret
  let ota_buff := store s.ota_buff r.stored
  let recv_len := r.ret
  if recv_len < 0 then
    if recv_len = HTTPD_SOCK_ERR_TIMEOUT then
      ([recv], .cond { s with ota_buff := ota_buff })
    else
      ([recv], .ret ESP_FAIL)
  else if !s.is_req_body_started then
    let body_start_p := body_start ota_buff
    let body_part_len := body_part_len P.ota_buff_addr recv_len ota_buff
    let begin := Event.esp_ota_begin P.next_update_partition P.ota_begin_ret
    if P.ota_begin_ret ≠ ESP_OK then
      ([recv, begin], .ret ESP_FAIL)
    else
      let ota_handle := some P.ota_begin_handle
      let size := to_u32 body_part_len
      let write := Event.esp_ota_write ota_handle body_start_p size
        (read_bytes ota_buff body_start_p size) (P.ota_write_ret s.writes)
      ([recv, begin, write],
        .cond { ota_buff := ota_buff
                content_received := wrap32 (s.content_received + body_part_len)
                is_req_body_started := true
                ota_handle := ota_handle
                writes := s.writes + 1 })
  else
    let size := to_u32 recv_len
    let write := Event.esp_ota_write s.ota_handle (.buf 0) size
      (read_bytes ota_buff (.buf 0) size) (P.ota_write_ret s.writes)
    ([recv, write],
      .cond { s with ota_buff := ota_buff
                     content_received := wrap32 (s.content_received + recv_len)
                     writes := s.writes + 1 })

/-- The `do ... while (recv_len > 0 && content_received < content_lenght)` loop,
run on the remaining read outcomes.  When they are used up the read reports the
end of the stream: the body runs once more with `recv_len = 0`, after which the
condition is false. -/
def ota_loop (P : Platform) : List RecvOutcome → Locals → List Event × Flow
  | [], s => loop_body P RecvOutcome.eof s
  | r :: rest, s =>
      match loop_body P r s with
      | (evs, .ret code) => (evs, .ret code)
      | (evs, .cond s1) =>
          if r.ret > 0 ∧ s1.content_received < content_lenght P then
            let (evs1, f) := ota_loop P rest s1
            (evs ++ evs1, f)
          else
            (evs, .cond s1)

/-- The code after the loop: `esp_ota_end`, `esp_ota_set_boot_partition`, and the
message sent to the monitor. -/
def finish (P : Platform) (s : Locals) : List Event :=
  let ota_end := Event.esp_ota_end s.ota_handle P.ota_end_ret
  let set_boot := Event.esp_ota_set_boot_partition P.next_update_partition P.set_boot_ret
  if P.ota_end_ret = ESP_OK then
    if P.set_boot_ret = ESP_OK then
      [ota_end, set_boot, .esp_ota_get_boot_partition,
        .http_server_monitor_send_message .HTTP_MSG_OTA_UPDATE_SUCCESSFUL]
    else
      [ota_end, set_boot, .http_server_monitor_send_message .HTTP_MSG_OTA_UPDATE_FAILED]
  else
    [ota_end, .http_server_monitor_send_message .HTTP_MSG_OTA_UPDATE_FAILED]

/-- The values of the locals when the handler starts. -/
def Locals.init (P : Platform) : Locals :=
  { ota_buff := P.stack
    content_received := 0
    is_req_body_started := false
    ota_handle := none
    writes := 0 }

/-- The function `http_server_OTA_update_handler`: the calls it makes, in order,
and its return value. -/
def http_server_OTA_update_handler (P : Platform) : List Event × Int :=
  let get := Event.esp_ota_get_next_update_partition P.next_update_partition
  match ota_loop P P.recvs (Locals.init P) with
  | (evs, .ret code) => (get :: evs, code)
  | (evs, .cond s) => (get :: (evs ++ finish P s), ESP_OK)

/-! ## Observations on a run -/

/-- The list of calls made by a run. -/
def trace (P : Platform) : List Event := (http_server_OTA_update_handler P).1

/-- The messages posted to the monitor queue, in order. -/
def posted : List Event → List http_server_message_e
  | [] => []
  | .http_server_monitor_send_message m :: evs => m :: posted evs
  | _ :: evs => posted evs

/-- The byte ranges handed to `esp_ota_write`, in call order (`none` for a range
outside `ota_buff`). -/
def written : List Event → List (Option (List Nat))
  | [] => []
  | .esp_ota_write _ _ _ bytes _ :: evs => bytes :: written evs
  | _ :: evs => written evs

/-- The bytes of one write followed by the bytes of the later writes, when both
are known. -/
def append_written : Option (List Nat) → Option (List Nat) → Option (List Nat)
  | some b, some rest => some (b ++ rest)
  | _, _ => none

/-- The concatenation, in call order, of the byte ranges handed to
`esp_ota_write`; `none` when one of the ranges does not lie in `ota_buff`. -/
def written_bytes : List Event → Option (List Nat)
  | [] => some []
  | .esp_ota_write _ _ _ bytes _ :: evs => append_written bytes (written_bytes evs)
  | _ :: evs => written_bytes evs

/-- Whether the event is a call of `esp_ota_set_boot_partition`. -/
def is_set_boot : Event → Bool
  | .esp_ota_set_boot_partition _ _ => true
  | _ => false

/-- Whether the event is a call of `esp_ota_begin`. -/
def is_begin : Event → Bool
  | .esp_ota_begin _ _ => true
  | _ => false

/-- Whether the event is a call of `esp_ota_write`. -/
def is_write : Event → Bool
  | .esp_ota_write _ _ _ _ _ => true
  | _ => false

/-- Whether the event is a call of `esp_ota_end`. -/
def is_end : Event → Bool
  | .esp_ota_end _ _ => true
  | _ => false

/-- Whether the event is a call of `httpd_req_recv`. -/
def is_recv : Event → Bool
  | .httpd_req_recv _ _ => true
  | _ => false

/-- The boot target after the calls `evs`, starting from `boot`: of the calls of
the handler only a successful `esp_ota_set_boot_partition` changes it. -/
def boot_target (boot : Nat) : List Event → Nat
  | [] => boot
  | .esp_ota_set_boot_partition p ret :: evs =>
      boot_target (if ret = ESP_OK then p else boot) evs
  | _ :: evs => boot_target boot evs

/-- The events that the loop can produce: reads, `esp_ota_begin` and
`esp_ota_write`. -/
def loop_event : Event → Bool
  | .httpd_req_recv _ _ => true
  | .esp_ota_begin _ _ => true
  | .esp_ota_write _ _ _ _ _ => true
  | _ => false

/-- Whether the event is a call of `esp_ota_get_next_update_partition`. -/
def is_get_next : Event → Bool
  | .esp_ota_get_next_update_partition _ => true
  | _ => false

/-- The event with the result of an `esp_ota_write` call replaced by `ESP_OK`;
other events are kept as they are. -/
def forget_write_ret : Event → Event
  | .esp_ota_write handle data size bytes _ => .esp_ota_write handle data size bytes ESP_OK
  | e => e

/-- The outcome of the first `httpd_req_recv` call of a run. -/
def first_recv (P : Platform) : RecvOutcome := P.recvs.headD RecvOutcome.eof

/-! ## Sample runs -/

/-- A platform for a request of `content_len` bytes whose reads have the
outcomes `recvs`, with the given results of `esp_ota_begin`, `esp_ota_end` and
`esp_ota_set_boot_partition`; every `esp_ota_write` returns `ESP_OK`, the update
partition is number 7, the handle is 1, and `ota_buff` holds 1024 NUL bytes at
address `0x3FFB0000` when the handler starts. -/
def sample (content_len : Nat) (recvs : List RecvOutcome)
    (ota_begin_ret ota_end_ret set_boot_ret : Int) : Platform :=
  { content_len := content_len
    ota_buff_addr := 1073414144
    stack := List.replicate 1024 0
    next_update_partition := 7
    recvs := recvs
    ota_begin_ret := ota_begin_ret
    ota_begin_handle := 1
    ota_write_ret := fun _ => ESP_OK
    ota_end_ret := ota_end_ret
    set_boot_ret := set_boot_ret }

/-- The bytes CR LF CR LF 'A': an empty header block, the marker, and a one-byte
payload. -/
def tiny_upload : List Nat := [13, 10, 13, 10, 65]

/-- The bytes CR LF CR 'A' CR LF CR LF 'F' 'W': a header block that holds
CR LF CR followed by a letter, then the marker, then the payload "FW". -/
def early_cr_upload : List Nat := [13, 10, 13, 65, 13, 10, 13, 10, 70, 87]

/-- The bytes of "header". -/
def sample_header : List Nat := [104, 101, 97, 100, 101, 114]

/-- The bytes of "FIRMWAREBYTES". -/
def sample_firmware : List Nat := [70, 73, 82, 77, 87, 65, 82, 69, 66, 89, 84, 69, 83]

/-- The bytes 'A' 'B' 'C': a chunk without CR LF CR. -/
def no_marker_upload : List Nat := [65, 66, 67]

/-- The bytes NUL CR LF CR LF 'F' 'W': a header block made of one NUL byte, the
marker, and the payload "FW". -/
def nul_header_upload : List Nat := [0, 13, 10, 13, 10, 70, 87]

/-- Three chunks, eleven bytes in all: CR LF CR LF 'A', then "BCDEF", then "G". -/
def overlong_chunks : List (List Nat) := [tiny_upload, [66, 67, 68, 69, 70], [71]]

/-- The upload "header" CR LF CR LF "FIRMWAREBYTES" delivered as one chunk. -/
def firmware_one_chunk : List (List Nat) := [sample_header ++ CRLFCRLF ++ sample_firmware]

/-- The same upload delivered as two chunks, cut after "FIR". -/
def firmware_two_chunks : List (List Nat) :=
  [sample_header ++ CRLFCRLF ++ [70, 73, 82], [77, 87, 65, 82, 69, 66, 89, 84, 69, 83]]

/-- A nine-byte upload, CR LF CR LF 'A' then "BCDE", on a platform whose first
`esp_ota_write` call returns `ESP_FAIL`; the later writes and every other call
succeed. -/
def sample_write_error : Platform :=
  { sample 9 [.data tiny_upload, .data [66, 67, 68, 69]] ESP_OK ESP_OK ESP_OK with
    ota_write_ret := fun k => if k = 0 then ESP_FAIL else ESP_OK }

/-- A five-byte upload whose first read returns `HTTPD_SOCK_ERR_TIMEOUT`, every
other platform call succeeding. -/
def sample_first_read_timeout : Platform :=
  sample 5 [.fail HTTPD_SOCK_ERR_TIMEOUT, .data tiny_upload] ESP_OK ESP_OK ESP_OK

/-- The bytes "header" CR LF CR: a first chunk that ends in the middle of the
marker, the LF coming with the next chunk. -/
def cut_marker_chunk : List Nat := sample_header ++ [13, 10, 13]

/-- The 23-byte upload "header" CR LF CR LF "FIRMWAREBYTES" delivered as the nine
bytes of `cut_marker_chunk` followed by the other fourteen, every platform call
succeeding. -/
def sample_cut_marker : Platform :=
  sample 23 [.data cut_marker_chunk, .data (10 :: sample_firmware)] ESP_OK ESP_OK ESP_OK

/-! ## Reference definitions, written from the specification -/

/-- The index of the first occurrence of `pat` in `xs` (the whole list is
searched, whatever the bytes are). -/
def first_occurrence (pat : List Nat) : List Nat → Option Nat
  | [] => if pat = [] then some 0 else none
  | b :: rest =>
      if pat.isPrefixOf (b :: rest) then some 0
      else (first_occurrence pat rest).map (· + 1)

/-- The payload of an uploaded stream: what follows the first CR LF CR LF. -/
def payload_of_stream (stream : List Nat) : List Nat :=
  match first_occurrence CRLFCRLF stream with
  | some i => stream.drop (i + 4)
  | none => []

/-- What the specification expects the sink to receive for a sequence of chunks:
the first chunk without its prefix up to and including the marker, then the
other chunks. -/
def expected_payload : List (List Nat) → List Nat
  | [] => []
  | c :: cs => payload_of_stream c ++ cs.flatten

/-- An upload as the claim on chunked uploads needs it, for the platform `P` and
the chunks `chunks` delivered by the successive reads:

* the reads deliver the chunks, in order, without timeout or error, and then
  report the end of the stream;
* the chunks together are no longer than the declared `content_len`, which fits
  in an `int`;
* no chunk is empty;
* the first chunk is a header block `H`, the marker CR LF CR LF and a payload,
  with no NUL in `H` and no CR LF CR starting before position `len(H)`;
* `esp_ota_begin` returns `ESP_OK`. -/
structure GoodUpload (P : Platform) (chunks : List (List Nat)) : Prop where
  recvs : P.recvs = chunks.map RecvOutcome.data
  declared : chunks.flatten.length ≤ P.content_len
  int_range : P.content_len < 2147483648
  nonempty : ∀ c ∈ chunks, c ≠ []
  header : ∃ H Pl cs, chunks = (H ++ CRLFCRLF ++ Pl) :: cs ∧ 0 ∉ H ∧
    ∀ i < H.length, ¬ needle <+: (H ++ CRLFCRLF ++ Pl).drop i
  opened : P.ota_begin_ret = ESP_OK

end HttpServer

namespace HttpServer

/-! ## Structure of a run -/

theorem loop_body_events (P : Platform) (r : RecvOutcome) (s : Locals) :
    ∀ e ∈ (loop_body P r s).1, loop_event e = true := by
  unfold loop_body
  simp only []
  split_ifs <;> simp [loop_event]

theorem loop_body_ret (P : Platform) (r : RecvOutcome) (s : Locals) (code : Int)
    (h : (loop_body P r s).2 = .ret code) : code = ESP_FAIL := by
  unfold loop_body at h
  simp only [] at h
  split_ifs at h <;> simp_all

theorem ota_loop_events (P : Platform) :
    ∀ (rs : List RecvOutcome) (s : Locals), ∀ e ∈ (ota_loop P rs s).1, loop_event e = true := by
  intro rs
  induction rs with
  | nil => intro s; exact loop_body_events P _ s
  | cons r rest ih =>
    intro s e he
    have hb := loop_body_events P r s
    unfold ota_loop at he
    rcases hlb : loop_body P r s with ⟨evs, f⟩
    rw [hlb] at he hb
    cases f with
    | ret code => exact hb e he
    | cond s1 =>
      simp only [] at he
      split_ifs at he
      · have ih1 := ih s1
        rcases hl : ota_loop P rest s1 with ⟨evs1, f1⟩
        rw [hl] at he ih1
        simp only [List.mem_append] at he
        rcases he with he | he
        · exact hb e he
        · exact ih1 e he
      · exact hb e he

theorem ota_loop_ret (P : Platform) :
    ∀ (rs : List RecvOutcome) (s : Locals) (code : Int),
      (ota_loop P rs s).2 = .ret code → code = ESP_FAIL := by
  intro rs
  induction rs with
  | nil => intro s code h; exact loop_body_ret P _ s code h
  | cons r rest ih =>
    intro s code h
    have hb := loop_body_ret P r s
    unfold ota_loop at h
    rcases hlb : loop_body P r s with ⟨evs, f⟩
    rw [hlb] at h hb
    cases f with
    | ret c => simp only [Flow.ret.injEq] at h; exact hb code (by simp [h])
    | cond s1 =>
      simp only [] at h
      split_ifs at h
      · have ih1 := ih s1 code
        rcases hl : ota_loop P rest s1 with ⟨evs1, f1⟩
        rw [hl] at h ih1
        exact ih1 h

/-- A run either leaves the loop by `return ESP_FAIL`, having made only loop
calls, or falls out of the loop and runs the code after it. -/
theorem handler_cases (P : Platform) :
    (∃ evs, (∀ e ∈ evs, loop_event e = true) ∧
      ota_loop P P.recvs (Locals.init P) = (evs, .ret ESP_FAIL) ∧
      http_server_OTA_update_handler P =
        (Event.esp_ota_get_next_update_partition P.next_update_partition :: evs, ESP_FAIL)) ∨
    (∃ evs s, (∀ e ∈ evs, loop_event e = true) ∧
      ota_loop P P.recvs (Locals.init P) = (evs, .cond s) ∧
      http_server_OTA_update_handler P =
        (Event.esp_ota_get_next_update_partition P.next_update_partition
          :: (evs ++ finish P s), ESP_OK)) := by
  have hev := ota_loop_events P P.recvs (Locals.init P)
  have hret := ota_loop_ret P P.recvs (Locals.init P)
  unfold http_server_OTA_update_handler
  rcases hl : ota_loop P P.recvs (Locals.init P) with ⟨evs, f⟩
  rw [hl] at hev hret
  cases f with
  | ret code =>
    have hc : code = ESP_FAIL := hret code rfl
    subst hc
    exact Or.inl ⟨evs, hev, rfl, rfl⟩
  | cond s => exact Or.inr ⟨evs, s, hev, rfl, rfl⟩

theorem posted_append (a b : List Event) : posted (a ++ b) = posted a ++ posted b := by
  induction a with
  | nil => rfl
  | cons e a ih => cases e <;> simp [posted, ih]

theorem posted_loop (evs : List Event) (h : ∀ e ∈ evs, loop_event e = true) :
    posted evs = [] := by
  induction evs with
  | nil => rfl
  | cons e evs ih =>
    have he := h e (List.mem_cons_self _ _)
    have ih1 := ih (fun x hx => h x (List.mem_cons_of_mem _ hx))
    cases e <;> simp_all [posted, loop_event]

theorem boot_target_append (a b : List Event) (boot : Nat) :
    boot_target boot (a ++ b) = boot_target (boot_target boot a) b := by
  induction a generalizing boot with
  | nil => rfl
  | cons e a ih => cases e <;> simp [boot_target, ih]

theorem boot_target_loop (evs : List Event) (h : ∀ e ∈ evs, loop_event e = true) (boot : Nat) :
    boot_target boot evs = boot := by
  induction evs with
  | nil => rfl
  | cons e evs ih =>
    have he := h e (List.mem_cons_self _ _)
    have ih1 := ih (fun x hx => h x (List.mem_cons_of_mem _ hx))
    cases e <;> simp_all [boot_target, loop_event]

theorem filter_set_boot_loop (evs : List Event) (h : ∀ e ∈ evs, loop_event e = true) :
    evs.filter is_set_boot = [] := by
  rw [List.filter_eq_nil_iff]
  intro e he
  have := h e he
  cases e <;> simp_all [loop_event, is_set_boot]

/-- A call that is neither a loop call nor the partition lookup is made by the
code after the loop: the run fell out of the loop. -/
theorem fell_through (P : Platform) (e : Event) (he : e ∈ trace P)
    (hl : loop_event e = false)
    (hg : e ≠ Event.esp_ota_get_next_update_partition P.next_update_partition) :
    ∃ evs s, (∀ x ∈ evs, loop_event x = true) ∧
      ota_loop P P.recvs (Locals.init P) = (evs, .cond s) ∧
      (http_server_OTA_update_handler P).2 = ESP_OK ∧
      trace P = Event.esp_ota_get_next_update_partition P.next_update_partition
        :: (evs ++ finish P s) ∧
      e ∈ finish P s := by
  unfold trace at he ⊢
  rcases handler_cases P with ⟨evs, hev, hloop, hrun⟩ | ⟨evs, s, hev, hloop, hrun⟩
  · rw [hrun] at he
    simp only [List.mem_cons] at he
    rcases he with he | he
    · exact absurd he hg
    · have := hev e he
      simp [hl] at this
  · rw [hrun] at he ⊢
    simp only [List.mem_cons, List.mem_append] at he
    rcases he with he | he | he
    · exact absurd he hg
    · have := hev e he
      simp [hl] at this
    · exact ⟨evs, s, hev, hloop, rfl, rfl, he⟩

/-! ## Finalisation and boot switch -/

/-- C2: `esp_ota_set_boot_partition` is called only after `esp_ota_end` has
returned `ESP_OK` (every call of it in the trace has such an `esp_ota_end` call
before it); and when `esp_ota_end` returns an error the run contains no
`esp_ota_set_boot_partition` call and posts exactly `HTTP_MSG_OTA_UPDATE_FAILED`,
so never `HTTP_MSG_OTA_UPDATE_SUCCESSFUL`. -/
theorem set_boot_partition_only_after_end_ok (P : Platform) :
    (∀ pre post p r, trace P = pre ++ Event.esp_ota_set_boot_partition p r :: post →
        ∃ h, Event.esp_ota_end h ESP_OK ∈ pre) ∧
    (∀ h r, Event.esp_ota_end h r ∈ trace P → r ≠ ESP_OK →
        (∀ e ∈ trace P, is_set_boot e = false) ∧
        posted (trace P) = [.HTTP_MSG_OTA_UPDATE_FAILED]) := by
  constructor
  · intro pre post p r htr
    have hmem : Event.esp_ota_set_boot_partition p r ∈ trace P := by
      rw [htr]; simp
    obtain ⟨evs, s, hev, -, -, hshape, hfin⟩ := fell_through P _ hmem rfl (by simp)
    rw [hshape, ← List.cons_append, List.append_eq_append_iff] at htr
    rcases htr with ⟨a, hpre, hF⟩ | ⟨c, hL, hF⟩
    · refine ⟨s.ota_handle, ?_⟩
      rw [hpre]
      unfold finish at hF
      simp only [] at hF
      split_ifs at hF with h1 h2
      all_goals
        rcases a with _ | ⟨x, a⟩
        · simp at hF
        · rcases a with _ | ⟨y, a⟩
          · simp at hF
            try (rw [← hF.1, h1]; simp)
          · rcases a with _ | ⟨z, a⟩
            · simp at hF
            · rcases a with _ | ⟨w, a⟩
              · simp at hF
              · simp at hF
    · rcases c with _ | ⟨x, c⟩
      · unfold finish at hF
        simp only [] at hF
        split_ifs at hF <;> simp at hF
      · simp only [List.cons_append, List.cons.injEq] at hF
        have hx : x ∈ Event.esp_ota_get_next_update_partition P.next_update_partition :: evs := by
          rw [hL]; simp
        rw [← hF.1] at hx
        simp only [List.mem_cons] at hx
        rcases hx with hx | hx
        · simp at hx
        · have := hev _ hx
          simp [loop_event] at this
  · intro h r hmem hr
    obtain ⟨evs, s, hev, -, -, hshape, hfin⟩ := fell_through P _ hmem rfl (by simp)
    have hne : P.ota_end_ret ≠ ESP_OK := by
      intro hok
      unfold finish at hfin
      simp [hok] at hfin
      split_ifs at hfin <;> simp at hfin <;> exact hr hfin.2
    constructor
    · intro e he
      rw [hshape] at he
      simp only [List.mem_cons, List.mem_append] at he
      rcases he with he | he | he
      · subst he; rfl
      · have := hev e he
        cases e <;> simp_all [loop_event, is_set_boot]
      · unfold finish at he
        simp [hne] at he
        rcases he with he | he <;> subst he <;> rfl
    · rw [hshape]
      have hp : posted (finish P s) = [.HTTP_MSG_OTA_UPDATE_FAILED] := by
        unfold finish
        simp [hne, posted]
      simp [posted, posted_append, posted_loop evs hev, hp]

set_option maxRecDepth 100000 in
/-- Witness for C2: a five-byte upload on which everything succeeds, and the
same upload when `esp_ota_end` returns `ESP_FAIL`. -/
theorem set_boot_partition_only_after_end_ok_witness :
    (∃ h, Event.esp_ota_end h ESP_OK ∈
      [Event.esp_ota_get_next_update_partition 7, .httpd_req_recv 5 5, .esp_ota_begin 7 0,
        .esp_ota_write (some 1) (.buf 4) 1 (some [65]) 0, .httpd_req_recv 5 0,
        .esp_ota_write (some 1) (.buf 0) 0 (some []) 0, .esp_ota_end (some 1) 0]) ∧
    ((∀ e ∈ trace (sample 5 [.data tiny_upload] ESP_OK ESP_FAIL ESP_OK), is_set_boot e = false) ∧
      posted (trace (sample 5 [.data tiny_upload] ESP_OK ESP_FAIL ESP_OK))
        = [.HTTP_MSG_OTA_UPDATE_FAILED]) :=
  ⟨(set_boot_partition_only_after_end_ok (sample 5 [.data tiny_upload] ESP_OK ESP_OK ESP_OK)).1
      _ [.esp_ota_get_boot_partition,
        .http_server_monitor_send_message .HTTP_MSG_OTA_UPDATE_SUCCESSFUL] 7 0 (by decide),
    (set_boot_partition_only_after_end_ok (sample 5 [.data tiny_upload] ESP_OK ESP_FAIL ESP_OK)).2
      (some 1) (-1) (by decide) (by decide)⟩

/-- C3: when `esp_ota_end` returns `ESP_OK` and `esp_ota_set_boot_partition`
returns an error, the handler posts exactly one message,
`HTTP_MSG_OTA_UPDATE_FAILED`; once the monitor has processed it the update status
is `OTA_UPDATE_FAILED`; the failed call is the only `esp_ota_set_boot_partition`
call of the run, and the boot target after the run is the one before it. -/
theorem boot_switch_error_posts_failed (P : Platform) (g : Globals) (boot : Nat)
    (h : Option Nat) (p : Nat) (r : Int)
    (hend : Event.esp_ota_end h ESP_OK ∈ trace P)
    (hboot : Event.esp_ota_set_boot_partition p r ∈ trace P) (hr : r ≠ ESP_OK) :
    posted (trace P) = [.HTTP_MSG_OTA_UPDATE_FAILED] ∧
    (http_server_monitor g (posted (trace P))).g_fw_update_status = .OTA_UPDATE_FAILED ∧
    (trace P).filter is_set_boot = [Event.esp_ota_set_boot_partition p r] ∧
    boot_target boot (trace P) = boot := by
  obtain ⟨evs, s, hev, -, -, hshape, hfin⟩ := fell_through P _ hboot rfl (by simp)
  have hfin2 : Event.esp_ota_end h ESP_OK ∈ finish P s := by
    rw [hshape] at hend
    simp only [List.mem_cons, List.mem_append] at hend
    rcases hend with he | he | he
    · simp at he
    · have := hev _ he
      simp [loop_event] at this
    · exact he
  have hF : finish P s = [Event.esp_ota_end s.ota_handle ESP_OK,
      Event.esp_ota_set_boot_partition p r,
      .http_server_monitor_send_message .HTTP_MSG_OTA_UPDATE_FAILED] := by
    unfold finish at hfin hfin2 ⊢
    simp only [] at hfin hfin2 ⊢
    split_ifs at hfin hfin2 ⊢ with h1 h2
    · simp at hfin
      rw [h2] at hfin
      exact absurd hfin.2.symm (Ne.symm hr)
    · simp at hfin
      simp [hfin.1, hfin.2, h1]
    · simp at hfin
  have hp : posted (trace P) = [.HTTP_MSG_OTA_UPDATE_FAILED] := by
    rw [hshape, hF]
    simp [posted, posted_append, posted_loop evs hev]
  refine ⟨hp, ?_, ?_, ?_⟩
  · rw [hp]; rfl
  · rw [hshape, hF]
    simp [List.filter_cons, is_set_boot, filter_set_boot_loop evs hev]
  · rw [hshape, hF]
    simp [boot_target, boot_target_append, boot_target_loop evs hev, hr]

set_option maxRecDepth 100000 in
/-- Witness for C3: the five-byte upload when `esp_ota_set_boot_partition`
returns `ESP_FAIL`, the monitor starting from its initial state and the boot
target being partition 3. -/
theorem boot_switch_error_posts_failed_witness :
    posted (trace (sample 5 [.data tiny_upload] ESP_OK ESP_OK ESP_FAIL))
      = [.HTTP_MSG_OTA_UPDATE_FAILED] ∧
    (http_server_monitor Globals.init
      (posted (trace (sample 5 [.data tiny_upload] ESP_OK ESP_OK ESP_FAIL)))).g_fw_update_status
      = .OTA_UPDATE_FAILED ∧
    (trace (sample 5 [.data tiny_upload] ESP_OK ESP_OK ESP_FAIL)).filter is_set_boot
      = [Event.esp_ota_set_boot_partition 7 (-1)] ∧
    boot_target 3 (trace (sample 5 [.data tiny_upload] ESP_OK ESP_OK ESP_FAIL)) = 3 :=
  boot_switch_error_posts_failed (sample 5 [.data tiny_upload] ESP_OK ESP_OK ESP_FAIL)
    Globals.init 3 (some 1) 7 (-1) (by decide) (by decide) (by decide)

/-- C4: when `esp_ota_end` and `esp_ota_set_boot_partition` both return `ESP_OK`
(whatever `esp_ota_begin` and the `esp_ota_write` calls returned), the handler
posts `HTTP_MSG_OTA_UPDATE_SUCCESSFUL` exactly once and no other message; when the
monitor processes it the update status becomes `OTA_UPDATE_SUCESSFUL` and the
restart timer is created and started exactly once. -/
theorem success_posts_once_and_arms_timer_once (P : Platform) (g : Globals)
    (h : Option Nat) (p : Nat)
    (_hend : Event.esp_ota_end h ESP_OK ∈ trace P)
    (hboot : Event.esp_ota_set_boot_partition p ESP_OK ∈ trace P) :
    posted (trace P) = [.HTTP_MSG_OTA_UPDATE_SUCCESSFUL] ∧
    (http_server_monitor g (posted (trace P))).g_fw_update_status = .OTA_UPDATE_SUCESSFUL ∧
    (http_server_monitor g (posted (trace P))).fw_update_reset_started
      = g.fw_update_reset_started + 1 := by
  obtain ⟨evs, s, hev, -, -, hshape, hfin⟩ := fell_through P _ hboot rfl (by simp)
  have hp : posted (finish P s) = [.HTTP_MSG_OTA_UPDATE_SUCCESSFUL] := by
    unfold finish at hfin ⊢
    simp only [] at hfin ⊢
    split_ifs at hfin ⊢ with h1 h2
    · simp [posted]
    · simp at hfin
      exact absurd hfin.2.symm h2
    · simp at hfin
  have hp2 : posted (trace P) = [.HTTP_MSG_OTA_UPDATE_SUCCESSFUL] := by
    rw [hshape]
    simp [posted, posted_append, posted_loop evs hev, hp]
  refine ⟨hp2, ?_, ?_⟩
  · rw [hp2]
    simp [http_server_monitor, http_server_monitor_step, http_server_fw_update_reset_timer]
  · rw [hp2]
    simp [http_server_monitor, http_server_monitor_step, http_server_fw_update_reset_timer]

set_option maxRecDepth 100000 in
/-- Witness for C4: the five-byte upload on which every call succeeds, the monitor
starting from its initial state. -/
theorem success_posts_once_and_arms_timer_once_witness :
    posted (trace (sample 5 [.data tiny_upload] ESP_OK ESP_OK ESP_OK))
      = [.HTTP_MSG_OTA_UPDATE_SUCCESSFUL] ∧
    (http_server_monitor Globals.init
      (posted (trace (sample 5 [.data tiny_upload] ESP_OK ESP_OK ESP_OK)))).g_fw_update_status
      = .OTA_UPDATE_SUCESSFUL ∧
    (http_server_monitor Globals.init
      (posted (trace (sample 5 [.data tiny_upload] ESP_OK ESP_OK ESP_OK)))).fw_update_reset_started
      = 0 + 1 :=
  success_posts_once_and_arms_timer_once (sample 5 [.data tiny_upload] ESP_OK ESP_OK ESP_OK)
    Globals.init (some 1) 7 (by decide) (by decide)

/-! ## Read outcomes: timeout, transport error, zero length -/

theorem loop_body_recv_mem (P : Platform) (r : RecvOutcome) (s : Locals) (n : Nat) (c : Int)
    (h : Event.httpd_req_recv n c ∈ (loop_body P r s).1) :
    n = MIN (content_lenght P) sizeof_ota_buff ∧ c = r.ret := by
  unfold loop_body at h
  simp only [] at h
  split_ifs at h <;> simp at h <;> exact h

theorem loop_body_error (P : Platform) (r : RecvOutcome) (s : Locals)
    (hneg : r.ret < 0) (hto : r.ret ≠ HTTPD_SOCK_ERR_TIMEOUT) :
    loop_body P r s =
      ([Event.httpd_req_recv (MIN (content_lenght P) sizeof_ota_buff) r.ret], .ret ESP_FAIL) := by
  unfold loop_body
  simp [hneg, hto]

theorem loop_body_cond_not_error (P : Platform) (r : RecvOutcome) (s s1 : Locals)
    (h : (loop_body P r s).2 = .cond s1) :
    ¬ (r.ret < 0 ∧ r.ret ≠ HTTPD_SOCK_ERR_TIMEOUT) := by
  rintro ⟨hneg, hto⟩
  rw [loop_body_error P r s hneg hto] at h
  simp at h

/-- The loop starts with one execution of its body, on the first read outcome,
and stops there unless that read returned a positive length. -/
theorem ota_loop_first (P : Platform) (rs : List RecvOutcome) (s : Locals) :
    (∃ tail, (ota_loop P rs s).1 = (loop_body P (rs.headD RecvOutcome.eof) s).1 ++ tail) ∧
    (¬ 0 < (rs.headD RecvOutcome.eof).ret →
      ota_loop P rs s = loop_body P (rs.headD RecvOutcome.eof) s) := by
  cases rs with
  | nil => exact ⟨⟨[], by simp [ota_loop]⟩, fun _ => by simp [ota_loop]⟩
  | cons r rest =>
    simp only [List.headD_cons]
    unfold ota_loop
    rcases hlb : loop_body P r s with ⟨evs, f⟩
    cases f with
    | ret code => exact ⟨⟨[], by simp⟩, fun _ => rfl⟩
    | cond s1 =>
      simp only []
      split_ifs with hc
      · rcases hl : ota_loop P rest s1 with ⟨evs1, f1⟩
        exact ⟨⟨evs1, rfl⟩, fun hn => absurd hc.1 hn⟩
      · exact ⟨⟨[], by simp⟩, fun _ => rfl⟩

theorem ota_loop_recv_mem (P : Platform) :
    ∀ (rs : List RecvOutcome) (s : Locals) (n : Nat) (c : Int),
      Event.httpd_req_recv n c ∈ (ota_loop P rs s).1 →
      n = MIN (content_lenght P) sizeof_ota_buff := by
  intro rs
  induction rs with
  | nil => intro s n c h; exact (loop_body_recv_mem P _ s n c h).1
  | cons r rest ih =>
    intro s n c h
    have hb := loop_body_recv_mem P r s n c
    unfold ota_loop at h
    rcases hlb : loop_body P r s with ⟨evs, f⟩
    rw [hlb] at h hb
    cases f with
    | ret code => exact (hb h).1
    | cond s1 =>
      simp only [] at h
      split_ifs at h
      · have ih1 := ih s1 n c
        rcases hl : ota_loop P rest s1 with ⟨evs1, f1⟩
        rw [hl] at h ih1
        simp only [List.mem_append] at h
        rcases h with h | h
        · exact (hb h).1
        · exact ih1 h
      · exact (hb h).1

/-- A read that returns a negative value other than the timeout code ends the
loop by `return ESP_FAIL`, and is the last call made by the loop. -/
theorem ota_loop_recv_error (P : Platform) (n : Nat) (c : Int)
    (hneg : c < 0) (hto : c ≠ HTTPD_SOCK_ERR_TIMEOUT) :
    ∀ (rs : List RecvOutcome) (s : Locals),
      Event.httpd_req_recv n c ∈ (ota_loop P rs s).1 →
      (ota_loop P rs s).2 = .ret ESP_FAIL ∧
      (ota_loop P rs s).1.getLast? = some (Event.httpd_req_recv n c) := by
  intro rs
  induction rs with
  | nil =>
    intro s h
    have := (loop_body_recv_mem P _ s n c h).2
    simp [RecvOutcome.eof] at this
    omega
  | cons r rest ih =>
    intro s h
    have hb := loop_body_recv_mem P r s n c
    have herr := loop_body_error P r s
    have hce := loop_body_cond_not_error P r s
    unfold ota_loop at h ⊢
    rcases hlb : loop_body P r s with ⟨evs, f⟩
    rw [hlb] at h hb herr hce
    cases f with
    | ret code =>
      simp only [] at h ⊢
      obtain ⟨hn, hc⟩ := hb h
      have := herr (hc ▸ hneg) (hc ▸ hto)
      simp only [Prod.mk.injEq] at this
      rw [this.1, this.2, hn, hc]
      simp
    | cond s1 =>
      simp only [] at h ⊢
      split_ifs at h ⊢ with hcont
      · have ih1 := ih s1
        rcases hl : ota_loop P rest s1 with ⟨evs1, f1⟩
        rw [hl] at h ih1
        simp only [List.mem_append] at h
        rcases h with h | h
        · have := (hb h).2
          omega
        · obtain ⟨h1, h2⟩ := ih1 h
          simp only [] at h1 h2 ⊢
          refine ⟨h1, ?_⟩
          rw [List.getLast?_append, h2]
          rfl
      · obtain ⟨-, hc⟩ := hb h
        exact absurd ⟨hc ▸ hneg, hc ▸ hto⟩ (hce s1 rfl)

set_option maxRecDepth 100000 in
/-- C5: the claim does not hold of the code.  A read that returns
`HTTPD_SOCK_ERR_TIMEOUT` is not retried: `continue` jumps to the loop condition,
which is false for a negative `recv_len`, so the next call is `esp_ota_end`.
First run: the timeout comes before the first chunk, `esp_ota_end` is called on
the uninitialised handle and the five bytes that follow are never read.  Second
run: the timeout comes while streaming and the last four bytes are never read. -/
theorem timeout_is_followed_by_esp_ota_end :
    trace (sample 5 [.fail HTTPD_SOCK_ERR_TIMEOUT, .data tiny_upload] ESP_OK ESP_OK ESP_OK) =
      [.esp_ota_get_next_update_partition 7, .httpd_req_recv 5 (-3), .esp_ota_end none 0,
        .esp_ota_set_boot_partition 7 0, .esp_ota_get_boot_partition,
        .http_server_monitor_send_message .HTTP_MSG_OTA_UPDATE_SUCCESSFUL] ∧
    trace (sample 9 [.data tiny_upload, .fail HTTPD_SOCK_ERR_TIMEOUT, .data [66, 67, 68, 69]]
        ESP_OK ESP_OK ESP_OK) =
      [.esp_ota_get_next_update_partition 7, .httpd_req_recv 9 5, .esp_ota_begin 7 0,
        .esp_ota_write (some 1) (.buf 4) 1 (some [65]) 0, .httpd_req_recv 9 (-3),
        .esp_ota_end (some 1) 0, .esp_ota_set_boot_partition 7 0, .esp_ota_get_boot_partition,
        .http_server_monitor_send_message .HTTP_MSG_OTA_UPDATE_SUCCESSFUL] := by
  constructor <;> decide

set_option maxRecDepth 100000 in
/-- Counterexample to C6 as stated: the first read returns `HTTPD_SOCK_ERR_FAIL`, a
negative value other than the timeout code; the handler returns `ESP_FAIL`
after that read and posts no message, so it does not post
`HTTP_MSG_OTA_UPDATE_FAILED`. -/
theorem transport_error_posts_no_failed_message :
    HTTPD_SOCK_ERR_FAIL < 0 ∧ HTTPD_SOCK_ERR_FAIL ≠ HTTPD_SOCK_ERR_TIMEOUT ∧
    http_server_OTA_update_handler (sample 5 [.fail HTTPD_SOCK_ERR_FAIL] ESP_OK ESP_OK ESP_OK) =
      ([.esp_ota_get_next_update_partition 7, .httpd_req_recv 5 (-1)], ESP_FAIL) ∧
    http_server_message_e.HTTP_MSG_OTA_UPDATE_FAILED ∉
      posted (trace (sample 5 [.fail HTTPD_SOCK_ERR_FAIL] ESP_OK ESP_OK ESP_OK)) := by
  refine ⟨by decide, by decide, by decide, by decide⟩

/-- C6 (amended): when a read returns a negative value other than
`HTTPD_SOCK_ERR_TIMEOUT`, at the first chunk or while streaming, the handler
returns `ESP_FAIL` at once: that read is its last call, it posts no message
(neither failed nor successful), and it calls neither `esp_ota_end` nor
`esp_ota_set_boot_partition`. -/
theorem transport_error_returns_fail (P : Platform) (n : Nat) (c : Int)
    (hrecv : Event.httpd_req_recv n c ∈ trace P)
    (hneg : c < 0) (hto : c ≠ HTTPD_SOCK_ERR_TIMEOUT) :
    (http_server_OTA_update_handler P).2 = ESP_FAIL ∧
    (trace P).getLast? = some (Event.httpd_req_recv n c) ∧
    posted (trace P) = [] ∧
    (∀ e ∈ trace P, is_end e = false ∧ is_set_boot e = false) := by
  have hloop : Event.httpd_req_recv n c ∈ (ota_loop P P.recvs (Locals.init P)).1 := by
    unfold trace at hrecv
    rcases handler_cases P with ⟨evs, hev, hl, hrun⟩ | ⟨evs, s, hev, hl, hrun⟩
    · rw [hrun] at hrecv
      rw [hl]
      simpa using hrecv
    · rw [hrun] at hrecv
      rw [hl]
      simp only [List.mem_cons, List.mem_append] at hrecv
      rcases hrecv with h | h | h
      · simp at h
      · exact h
      · unfold finish at h
        simp only [] at h
        split_ifs at h <;> simp at h
  obtain ⟨hflow, hlast⟩ := ota_loop_recv_error P n c hneg hto _ _ hloop
  have hev := ota_loop_events P P.recvs (Locals.init P)
  unfold trace http_server_OTA_update_handler
  rcases hl : ota_loop P P.recvs (Locals.init P) with ⟨evs, f⟩
  rw [hl] at hflow hlast hev
  simp only [] at hflow hlast
  subst hflow
  simp only []
  refine ⟨trivial, ?_, ?_, ?_⟩
  · rw [List.getLast?_cons, hlast]
    rfl
  · simp [posted, posted_loop evs hev]
  · intro e he
    simp only [List.mem_cons] at he
    rcases he with he | he
    · subst he; exact ⟨rfl, rfl⟩
    · have := hev e he
      cases e <;> simp_all [loop_event, is_end, is_set_boot]

set_option maxRecDepth 100000 in
/-- Witness for C6 (amended): an upload whose second read returns
`HTTPD_SOCK_ERR_FAIL`. -/
theorem transport_error_returns_fail_witness :
    (http_server_OTA_update_handler
      (sample 9 [.data tiny_upload, .fail HTTPD_SOCK_ERR_FAIL] ESP_OK ESP_OK ESP_OK)).2 = ESP_FAIL ∧
    (trace (sample 9 [.data tiny_upload, .fail HTTPD_SOCK_ERR_FAIL] ESP_OK ESP_OK ESP_OK)).getLast?
      = some (Event.httpd_req_recv 9 (-1)) ∧
    posted (trace (sample 9 [.data tiny_upload, .fail HTTPD_SOCK_ERR_FAIL] ESP_OK ESP_OK ESP_OK))
      = [] ∧
    (∀ e ∈ trace (sample 9 [.data tiny_upload, .fail HTTPD_SOCK_ERR_FAIL] ESP_OK ESP_OK ESP_OK),
      is_end e = false ∧ is_set_boot e = false) :=
  transport_error_returns_fail
    (sample 9 [.data tiny_upload, .fail HTTPD_SOCK_ERR_FAIL] ESP_OK ESP_OK ESP_OK) 9 (-1)
    (by decide) (by decide) (by decide)

theorem mem_trace_of_mem_loop (P : Platform) (e : Event)
    (h : e ∈ (ota_loop P P.recvs (Locals.init P)).1) : e ∈ trace P := by
  unfold trace
  rcases handler_cases P with ⟨evs, -, hl, hrun⟩ | ⟨evs, s, -, hl, hrun⟩
  · rw [hrun]; rw [hl] at h; simp [h]
  · rw [hrun]; rw [hl] at h; simp [h]

theorem recv_mem_loop_of_mem_trace (P : Platform) (n : Nat) (c : Int)
    (h : Event.httpd_req_recv n c ∈ trace P) :
    Event.httpd_req_recv n c ∈ (ota_loop P P.recvs (Locals.init P)).1 := by
  unfold trace at h
  rcases handler_cases P with ⟨evs, -, hl, hrun⟩ | ⟨evs, s, -, hl, hrun⟩
  · rw [hrun] at h
    rw [hl]
    simpa using h
  · rw [hrun] at h
    rw [hl]
    simp only [List.mem_cons, List.mem_append] at h
    rcases h with h | h | h
    · simp at h
    · exact h
    · unfold finish at h
      simp only [] at h
      split_ifs at h <;> simp at h

theorem loop_body_first_begin (P : Platform) (r : RecvOutcome) (s : Locals)
    (hr : 0 ≤ r.ret) (hs : s.is_req_body_started = false) :
    Event.esp_ota_begin P.next_update_partition P.ota_begin_ret ∈ (loop_body P r s).1 := by
  unfold loop_body
  simp only [hs]
  split_ifs <;> first | omega | simp_all

theorem loop_body_first_ok (P : Platform) (r : RecvOutcome) (s : Locals)
    (hr : 0 ≤ r.ret) (hs : s.is_req_body_started = false) (hb : P.ota_begin_ret = ESP_OK) :
    ∃ s1, (loop_body P r s).2 = .cond s1 := by
  unfold loop_body
  simp only [hs]
  split_ifs <;> first | omega | simp_all

theorem loop_body_neg (P : Platform) (r : RecvOutcome) (s : Locals) (hr : r.ret < 0) :
    (loop_body P r s).1 = [Event.httpd_req_recv (MIN (content_lenght P) sizeof_ota_buff) r.ret] := by
  unfold loop_body
  simp only [hr]
  split_ifs <;> simp_all

set_option maxRecDepth 100000 in
/-- Counterexample to C7 as stated: for a request whose `content_len` is 0 and
whose read returns 0, the handler calls `esp_ota_begin`, and with `esp_ota_end`
and `esp_ota_set_boot_partition` returning `ESP_OK` it posts
`HTTP_MSG_OTA_UPDATE_SUCCESSFUL`, not `HTTP_MSG_OTA_UPDATE_FAILED`. -/
theorem zero_length_request_calls_esp_ota_begin :
    (sample 0 [] ESP_OK ESP_OK ESP_OK).content_len = 0 ∧
    Event.esp_ota_begin 7 ESP_OK ∈ trace (sample 0 [] ESP_OK ESP_OK ESP_OK) ∧
    posted (trace (sample 0 [] ESP_OK ESP_OK ESP_OK)) = [.HTTP_MSG_OTA_UPDATE_SUCCESSFUL] := by
  refine ⟨rfl, by decide, by decide⟩

/-- C7 (amended): for a request whose `content_len` is 0 the handler has no
rejection step.  Every read asks for 0 bytes; `esp_ota_begin` is called exactly
when the first read returns a non-negative length; and when that read returns 0
and `esp_ota_begin`, `esp_ota_end` and `esp_ota_set_boot_partition` return
`ESP_OK`, the handler posts `HTTP_MSG_OTA_UPDATE_SUCCESSFUL`. -/
theorem zero_length_request_is_not_rejected (P : Platform) (h0 : P.content_len = 0) :
    (∀ n c, Event.httpd_req_recv n c ∈ trace P → n = 0) ∧
    ((trace P).any is_begin = true ↔ 0 ≤ (first_recv P).ret) ∧
    ((first_recv P).ret = 0 → P.ota_begin_ret = ESP_OK → P.ota_end_ret = ESP_OK →
      P.set_boot_ret = ESP_OK → posted (trace P) = [.HTTP_MSG_OTA_UPDATE_SUCCESSFUL]) := by
  obtain ⟨⟨tail, htail⟩, hstop⟩ := ota_loop_first P P.recvs (Locals.init P)
  refine ⟨?_, ?_, ?_⟩
  · intro n c h
    have := ota_loop_recv_mem P _ _ n c (recv_mem_loop_of_mem_trace P n c h)
    rw [this]
    simp [content_lenght, h0, wrap32, MIN, to_u32, sizeof_ota_buff]
  · constructor
    · intro hany
      by_contra hneg
      have hneg : (P.recvs.headD RecvOutcome.eof).ret < 0 := by
        unfold first_recv at hneg; omega
      have hl := hstop (by omega)
      have hevs := loop_body_neg P _ (Locals.init P) hneg
      rw [← hl] at hevs
      unfold trace at hany
      rcases handler_cases P with ⟨evs, -, hl2, hrun⟩ | ⟨evs, s, -, hl2, hrun⟩
      · rw [hrun] at hany
        rw [hl2] at hevs
        simp only [] at hevs
        subst hevs
        simp [is_begin] at hany
      · rw [hrun] at hany
        rw [hl2] at hevs
        simp only [] at hevs
        subst hevs
        unfold finish at hany
        simp only [] at hany
        split_ifs at hany <;> simp [is_begin] at hany
    · intro hr
      rw [List.any_eq_true]
      refine ⟨Event.esp_ota_begin P.next_update_partition P.ota_begin_ret, ?_, rfl⟩
      apply mem_trace_of_mem_loop
      rw [htail]
      exact List.mem_append_left _ (loop_body_first_begin P _ _ hr rfl)
  · intro hr hb he hsb
    have hr2 : (P.recvs.headD RecvOutcome.eof).ret = 0 := hr
    have hl := hstop (by omega)
    obtain ⟨s1, hs1⟩ := loop_body_first_ok P (P.recvs.headD RecvOutcome.eof) (Locals.init P)
      (by omega) rfl hb
    rw [← hl] at hs1
    unfold trace
    rcases handler_cases P with ⟨evs, hev, hl2, hrun⟩ | ⟨evs, s, hev, hl2, hrun⟩
    · rw [hl2] at hs1
      simp at hs1
    · rw [hrun]
      simp [posted, posted_append, posted_loop evs hev, finish, he, hsb]

set_option maxRecDepth 100000 in
/-- Witness for C7 (amended): the request of length 0 whose read returns 0, with
every platform call succeeding. -/
theorem zero_length_request_is_not_rejected_witness :
    (sample 0 [] ESP_OK ESP_OK ESP_OK).content_len = 0 ∧
    (0 : Nat) = 0 ∧
    ((trace (sample 0 [] ESP_OK ESP_OK ESP_OK)).any is_begin = true ↔
      0 ≤ (first_recv (sample 0 [] ESP_OK ESP_OK ESP_OK)).ret) ∧
    posted (trace (sample 0 [] ESP_OK ESP_OK ESP_OK)) = [.HTTP_MSG_OTA_UPDATE_SUCCESSFUL] :=
  ⟨rfl,
    (zero_length_request_is_not_rejected (sample 0 [] ESP_OK ESP_OK ESP_OK) rfl).1 0 0
      (by decide),
    (zero_length_request_is_not_rejected (sample 0 [] ESP_OK ESP_OK ESP_OK) rfl).2.1,
    (zero_length_request_is_not_rejected (sample 0 [] ESP_OK ESP_OK ESP_OK) rfl).2.2
      (by decide) (by decide) (by decide) (by decide)⟩

/-! ## Envelope stripping -/

theorem wrap32_of_bounds {x : Int} (h0 : -2147483648 ≤ x) (h1 : x < 2147483648) :
    wrap32 x = x := by
  unfold wrap32
  omega

theorem to_u32_of_nat {n : Nat} (h : n < 4294967296) : to_u32 (n : Int) = n := by
  unfold to_u32
  omega

/-- When the header block holds no NUL and no CR LF CR starts inside it, `strstr`
stops at the marker that follows it, whatever comes after the marker. -/
theorem strstr_marker (H t1 t2 : List Nat) (hnul : 0 ∉ H)
    (hfirst : ∀ i < H.length, ¬ needle <+: (H ++ CRLFCRLF ++ t1).drop i) :
    strstr needle (H ++ CRLFCRLF ++ t2) = some H.length := by
  induction H with
  | nil => simp [strstr, needle, CRLFCRLF, List.isPrefixOf]
  | cons b H ih =>
    have hb : b ≠ 0 := by
      intro h; apply hnul; simp [h]
    have h0 := hfirst 0 (by simp)
    rw [← List.isPrefixOf_iff_prefix] at h0
    have hnp : needle.isPrefixOf (b :: (H ++ CRLFCRLF ++ t2)) = false := by
      rcases H with _ | ⟨x, _ | ⟨y, H⟩⟩ <;>
        simp_all [needle, CRLFCRLF, CR, LF, List.isPrefixOf]
    have ih1 := ih (fun h => hnul (List.mem_cons_of_mem _ h))
      (fun i hi => by
        have := hfirst (i + 1) (by simp; omega)
        simpa using this)
    simp only [List.cons_append, List.append_assoc] at ih1 hnp ⊢
    simp [strstr, hnp, hb, ih1]

theorem marker_chunk_length (H Pl : List Nat) :
    (H ++ CRLFCRLF ++ Pl).length = H.length + 4 + Pl.length := by
  simp [CRLFCRLF]
  omega

theorem body_start_marker (stack H Pl : List Nat) (hnul : 0 ∉ H)
    (hfirst : ∀ i < H.length, ¬ needle <+: (H ++ CRLFCRLF ++ Pl).drop i) :
    body_start (store stack (H ++ CRLFCRLF ++ Pl)) = .buf (H.length + 4) := by
  unfold body_start store
  rw [List.append_assoc (H ++ CRLFCRLF) Pl, strstr_marker H Pl _ hnul hfirst]

theorem body_part_len_marker (addr : Nat) (stack H Pl : List Nat) (hnul : 0 ∉ H)
    (hfirst : ∀ i < H.length, ¬ needle <+: (H ++ CRLFCRLF ++ Pl).drop i)
    (hlen : (H ++ CRLFCRLF ++ Pl).length < 2147483648) :
    body_part_len addr ((H ++ CRLFCRLF ++ Pl).length : Nat) (store stack (H ++ CRLFCRLF ++ Pl))
      = Pl.length := by
  have hl := marker_chunk_length H Pl
  unfold body_part_len
  rw [body_start_marker stack H Pl hnul hfirst]
  simp only [ptr_diff]
  have hin : wrap32 ((H.length + 4 : Nat) : Int) = ((H.length + 4 : Nat) : Int) :=
    wrap32_of_bounds (by omega) (by omega)
  rw [hin, wrap32_of_bounds (by omega) (by omega)]
  omega

theorem read_bytes_marker (stack H Pl : List Nat) :
    read_bytes (store stack (H ++ CRLFCRLF ++ Pl)) (.buf (H.length + 4)) Pl.length = some Pl := by
  have hl : (H ++ CRLFCRLF).length = H.length + 4 := by simp [CRLFCRLF]
  unfold read_bytes store
  simp only []
  rw [if_pos (by simp [CRLFCRLF]; omega)]
  rw [List.append_assoc (H ++ CRLFCRLF) Pl, ← hl, List.drop_left]
  simp

/-- The first execution of the loop body on a chunk made of a header block, the
marker and a payload, when `esp_ota_begin` succeeds. -/
theorem loop_body_first_chunk (P : Platform) (H Pl : List Nat) (s : Locals)
    (hnul : 0 ∉ H)
    (hfirst : ∀ i < H.length, ¬ needle <+: (H ++ CRLFCRLF ++ Pl).drop i)
    (hlen : (H ++ CRLFCRLF ++ Pl).length < 2147483648)
    (hs : s.is_req_body_started = false) (hbegin : P.ota_begin_ret = ESP_OK) :
    loop_body P (RecvOutcome.data (H ++ CRLFCRLF ++ Pl)) s =
      ([Event.httpd_req_recv (MIN (content_lenght P) sizeof_ota_buff)
          ((H ++ CRLFCRLF ++ Pl).length : Nat),
        Event.esp_ota_begin P.next_update_partition P.ota_begin_ret,
        Event.esp_ota_write (some P.ota_begin_handle) (.buf (H.length + 4)) Pl.length (some Pl)
          (P.ota_write_ret s.writes)],
       .cond { ota_buff := store s.ota_buff (H ++ CRLFCRLF ++ Pl)
               content_received := wrap32 (s.content_received + Pl.length)
               is_req_body_started := true
               ota_handle := some P.ota_begin_handle
               writes := s.writes + 1 }) := by
  have hl := marker_chunk_length H Pl
  have h1 := body_start_marker s.ota_buff H Pl hnul hfirst
  have h2 := body_part_len_marker P.ota_buff_addr s.ota_buff H Pl hnul hfirst hlen
  have h3 := read_bytes_marker s.ota_buff H Pl
  have h4 : to_u32 (Pl.length : Int) = Pl.length := to_u32_of_nat (by omega)
  unfold loop_body
  simp only [RecvOutcome.data, hs, h1, h2, h3, h4]
  rw [if_neg (by omega)]
  simp [hbegin]

/-- C9: when the first chunk is a header block `H`, the marker CR LF CR LF and a
payload `Pl`, with no NUL in `H` and no CR LF CR starting before position
`len(H)`, the envelope-stripping step gives the payload offset `len(H) + 4` and
`body_part_len = len(Pl)`, and (when `esp_ota_begin` succeeds, so that a write is
made) the first `esp_ota_write` receives exactly `Pl`. -/
theorem strip_yields_payload (P : Platform) (H Pl : List Nat) (rest : List RecvOutcome)
    (hnul : 0 ∉ H)
    (hfirst : ∀ i < H.length, ¬ needle <+: (H ++ CRLFCRLF ++ Pl).drop i)
    (hlen : (H ++ CRLFCRLF ++ Pl).length ≤ sizeof_ota_buff)
    (hrecvs : P.recvs = RecvOutcome.data (H ++ CRLFCRLF ++ Pl) :: rest)
    (hbegin : P.ota_begin_ret = ESP_OK) :
    body_start (store P.stack (H ++ CRLFCRLF ++ Pl)) = .buf (H.length + 4) ∧
    ptr_diff P.ota_buff_addr (body_start (store P.stack (H ++ CRLFCRLF ++ Pl)))
      = (H.length : Int) + 4 ∧
    body_part_len P.ota_buff_addr ((H ++ CRLFCRLF ++ Pl).length : Nat)
      (store P.stack (H ++ CRLFCRLF ++ Pl)) = Pl.length ∧
    (written (trace P)).head? = some (some Pl) := by
  have hl := marker_chunk_length H Pl
  have hlen2 : (H ++ CRLFCRLF ++ Pl).length < 2147483648 := by
    unfold sizeof_ota_buff at hlen; omega
  have h1 := body_start_marker P.stack H Pl hnul hfirst
  refine ⟨h1, ?_, body_part_len_marker _ _ H Pl hnul hfirst hlen2, ?_⟩
  · rw [h1]
    simp only [ptr_diff]
    rw [wrap32_of_bounds (by omega) (by omega)]
    omega
  · obtain ⟨⟨tail, htail⟩, -⟩ := ota_loop_first P P.recvs (Locals.init P)
    rw [hrecvs, List.headD_cons,
      loop_body_first_chunk P H Pl (Locals.init P) hnul hfirst hlen2 rfl hbegin] at htail
    unfold trace
    rcases handler_cases P with ⟨evs, -, hl2, hrun⟩ | ⟨evs, s, -, hl2, hrun⟩
    · rw [hrun]
      rw [hrecvs] at hl2
      rw [hl2] at htail
      simp only [] at htail
      subst htail
      simp [written]
    · rw [hrun]
      rw [hrecvs] at hl2
      rw [hl2] at htail
      simp only [] at htail
      subst htail
      simp [written]

set_option maxRecDepth 100000 in
/-- Witness for C9: the chunk "header" CR LF CR LF "FIRMWAREBYTES" of the
specification, as the only chunk of a 23-byte upload. -/
theorem strip_yields_payload_witness :
    body_start (store (sample 23 [.data (sample_header ++ CRLFCRLF ++ sample_firmware)]
        ESP_OK ESP_OK ESP_OK).stack (sample_header ++ CRLFCRLF ++ sample_firmware))
      = .buf (sample_header.length + 4) ∧
    ptr_diff (sample 23 [.data (sample_header ++ CRLFCRLF ++ sample_firmware)]
        ESP_OK ESP_OK ESP_OK).ota_buff_addr
      (body_start (store (sample 23 [.data (sample_header ++ CRLFCRLF ++ sample_firmware)]
        ESP_OK ESP_OK ESP_OK).stack (sample_header ++ CRLFCRLF ++ sample_firmware)))
      = (sample_header.length : Int) + 4 ∧
    body_part_len (sample 23 [.data (sample_header ++ CRLFCRLF ++ sample_firmware)]
        ESP_OK ESP_OK ESP_OK).ota_buff_addr
      ((sample_header ++ CRLFCRLF ++ sample_firmware).length : Nat)
      (store (sample 23 [.data (sample_header ++ CRLFCRLF ++ sample_firmware)]
        ESP_OK ESP_OK ESP_OK).stack (sample_header ++ CRLFCRLF ++ sample_firmware))
      = sample_firmware.length ∧
    (written (trace (sample 23 [.data (sample_header ++ CRLFCRLF ++ sample_firmware)]
        ESP_OK ESP_OK ESP_OK))).head? = some (some sample_firmware) :=
  strip_yields_payload
    (sample 23 [.data (sample_header ++ CRLFCRLF ++ sample_firmware)] ESP_OK ESP_OK ESP_OK)
    sample_header sample_firmware [] (by decide) (by decide) (by decide) rfl rfl

set_option maxRecDepth 100000 in
/-- C8: the claim does not hold of the code.  In the chunk
CR LF CR 'A' CR LF CR LF 'F' 'W' the first CR LF CR LF is at index 4, so the
payload starts at index 8; the handler searches for the three bytes CR LF CR,
finds them at index 0 and takes 4 as the payload offset, so that the first write
receives CR LF CR LF 'F' 'W' instead of 'F' 'W'. -/
theorem strstr_offset_is_not_after_first_marker :
    first_occurrence CRLFCRLF early_cr_upload = some 4 ∧
    body_start (store (List.replicate 1024 0) early_cr_upload) = .buf 4 ∧
    ptr_diff 1073414144 (body_start (store (List.replicate 1024 0) early_cr_upload)) = 4 ∧
    (written (trace (sample 10 [.data early_cr_upload] ESP_OK ESP_OK ESP_OK))).head?
      = some (some [13, 10, 13, 10, 70, 87]) := by
  refine ⟨by decide, by decide, by decide, by decide⟩

set_option maxRecDepth 100000 in
/-- C10: the claim does not hold of the code.  The three-byte chunk 'A' 'B' 'C'
holds no marker (the buffer holds NUL bytes after it); the result of `strstr` is
used unchecked, so the handler still calls `esp_ota_begin`, calls `esp_ota_write`
with the pointer `NULL + 4`, and, every platform call returning `ESP_OK`, sets the
boot partition and posts `HTTP_MSG_OTA_UPDATE_SUCCESSFUL`. -/
theorem missing_marker_is_not_detected :
    first_occurrence CRLFCRLF no_marker_upload = none ∧
    strstr needle (store (List.replicate 1024 0) no_marker_upload) = none ∧
    http_server_OTA_update_handler (sample 3 [.data no_marker_upload] ESP_OK ESP_OK ESP_OK) =
      ([.esp_ota_get_next_update_partition 7, .httpd_req_recv 3 3, .esp_ota_begin 7 0,
        .esp_ota_write (some 1) (.abs 4) 1073414143 none 0, .esp_ota_end (some 1) 0,
        .esp_ota_set_boot_partition 7 0, .esp_ota_get_boot_partition,
        .http_server_monitor_send_message .HTTP_MSG_OTA_UPDATE_SUCCESSFUL], ESP_OK) := by
  refine ⟨by decide, by decide, by decide⟩

/-! ## Streaming of the chunks -/

theorem wrap32_lt (x : Int) : wrap32 x < 2147483648 := by
  unfold wrap32
  omega

theorem written_bytes_write (h : Option Nat) (d : Ptr) (sz : Nat) (bytes : Option (List Nat))
    (ret : Int) (evs : List Event) :
    written_bytes (Event.esp_ota_write h d sz bytes ret :: evs)
      = append_written bytes (written_bytes evs) := rfl

theorem written_bytes_skip (e : Event) (evs : List Event) (he : is_write e = false) :
    written_bytes (e :: evs) = written_bytes evs := by
  cases e <;> first | rfl | simp [is_write] at he

theorem written_bytes_append (a b : List Event) (x y : List Nat)
    (ha : written_bytes a = some x) (hb : written_bytes b = some y) :
    written_bytes (a ++ b) = some (x ++ y) := by
  induction a generalizing x with
  | nil =>
    have hx : x = [] := by
      have : written_bytes [] = some [] := rfl
      rw [this] at ha
      exact (Option.some.inj ha).symm
    subst hx
    simpa using hb
  | cons e a ih =>
    rw [List.cons_append]
    by_cases hwe : is_write e = true
    · cases e with
      | esp_ota_write hd d sz bytes ret =>
        rw [written_bytes_write] at ha ⊢
        cases bytes with
        | none => simp [append_written] at ha
        | some bs =>
          cases hw : written_bytes a with
          | none => simp [hw, append_written] at ha
          | some r =>
            rw [hw] at ha
            simp only [append_written, Option.some.injEq] at ha
            rw [ih r hw]
            simp [append_written, ← ha]
      | _ => simp [is_write] at hwe
    · have hwe2 : is_write e = false := by simpa using hwe
      rw [written_bytes_skip e _ hwe2] at ha ⊢
      exact ih x ha

theorem written_bytes_finish (P : Platform) (s : Locals) :
    written_bytes (finish P s) = some [] := by
  unfold finish
  simp only []
  split_ifs <;> rfl

/-- The loop body on a later chunk: the chunk is written as it is. -/
theorem loop_body_stream (P : Platform) (c : List Nat) (s : Locals)
    (hs : s.is_req_body_started = true) (hc : c.length < 4294967296) :
    loop_body P (RecvOutcome.data c) s =
      ([Event.httpd_req_recv (MIN (content_lenght P) sizeof_ota_buff) (c.length : Nat),
        Event.esp_ota_write s.ota_handle (.buf 0) c.length (some c) (P.ota_write_ret s.writes)],
       .cond { s with ota_buff := store s.ota_buff c
                      content_received := wrap32 (s.content_received + c.length)
                      writes := s.writes + 1 }) := by
  have h4 : to_u32 (c.length : Int) = c.length := to_u32_of_nat hc
  have h3 : read_bytes (store s.ota_buff c) (.buf 0) c.length = some c := by
    unfold read_bytes store
    simp
  unfold loop_body
  simp only [RecvOutcome.data, hs, h3, h4]
  rw [if_neg (by omega)]
  simp

/-- Once the body has started, the loop writes every remaining chunk, in order,
as long as the declared length is not reached before the last one. -/
theorem ota_loop_stream (P : Platform) :
    ∀ (cs : List (List Nat)) (s : Locals), s.is_req_body_started = true →
      0 ≤ s.content_received →
      s.content_received + (cs.flatten.length : Int) < content_lenght P →
      (∀ c ∈ cs, c ≠ []) →
      written_bytes (ota_loop P (cs.map RecvOutcome.data) s).1 = some cs.flatten ∧
      ∃ s1, (ota_loop P (cs.map RecvOutcome.data) s).2 = .cond s1 := by
  have hcl := wrap32_lt P.content_len
  intro cs
  induction cs with
  | nil =>
    intro s hs _ _ _
    have he : RecvOutcome.eof = RecvOutcome.data [] := rfl
    simp only [List.map_nil, ota_loop, he]
    rw [loop_body_stream P [] s hs (by simp)]
    exact ⟨rfl, _, rfl⟩
  | cons c cs ih =>
    intro s hs h0 hlt hne
    have hcne : c ≠ [] := hne c (List.mem_cons_self _ _)
    have hcpos : 0 < c.length := List.length_pos.mpr hcne
    simp only [List.flatten_cons, List.length_append, Nat.cast_add] at hlt
    unfold content_lenght at hlt
    have hwr : wrap32 (s.content_received + (c.length : Int))
        = s.content_received + (c.length : Int) :=
      wrap32_of_bounds (by omega) (by omega)
    simp only [List.map_cons]
    unfold ota_loop
    rw [loop_body_stream P c s hs (by omega)]
    simp only [RecvOutcome.data, hwr]
    rw [if_pos (by unfold content_lenght; constructor <;> omega)]
    obtain ⟨hw, s1, hs1⟩ := ih
      { s with ota_buff := store s.ota_buff c
               content_received := s.content_received + (c.length : Int)
               writes := s.writes + 1 }
      hs (by simp only []; omega) (by simp only []; unfold content_lenght; omega)
      (fun x hx => hne x (List.mem_cons_of_mem _ hx))
    rcases hl : ota_loop P (cs.map RecvOutcome.data)
      { s with ota_buff := store s.ota_buff c
               content_received := s.content_received + (c.length : Int)
               writes := s.writes + 1 } with ⟨evs1, f1⟩
    rw [hl] at hw hs1
    simp only [] at hw hs1 ⊢
    refine ⟨?_, s1, hs1⟩
    rw [List.cons_append, List.cons_append, List.nil_append,
      written_bytes_skip (Event.httpd_req_recv _ _) _ rfl, written_bytes_write, hw]
    rfl

/-- When no CR LF CR starts inside the header block, the first CR LF CR LF of the
stream is the marker that follows it. -/
theorem first_occurrence_marker (H t1 t2 : List Nat)
    (hfirst : ∀ i < H.length, ¬ needle <+: (H ++ CRLFCRLF ++ t1).drop i) :
    first_occurrence CRLFCRLF (H ++ CRLFCRLF ++ t2) = some H.length := by
  induction H with
  | nil => simp [first_occurrence, CRLFCRLF, List.isPrefixOf]
  | cons b H ih =>
    have h0 := hfirst 0 (by simp)
    rw [← List.isPrefixOf_iff_prefix] at h0
    have hnp : CRLFCRLF.isPrefixOf (b :: (H ++ CRLFCRLF ++ t2)) = false := by
      rcases H with _ | ⟨x, _ | ⟨y, H⟩⟩ <;>
        simp_all [needle, CRLFCRLF, CR, LF, List.isPrefixOf]
    have ih1 := ih (fun i hi => by
      have := hfirst (i + 1) (by simp; omega)
      simpa using this)
    simp only [List.cons_append, List.append_assoc] at ih1 hnp ⊢
    simp [first_occurrence, hnp, ih1]

theorem payload_of_stream_marker (H Pl t : List Nat)
    (hfirst : ∀ i < H.length, ¬ needle <+: (H ++ CRLFCRLF ++ Pl).drop i) :
    payload_of_stream (H ++ CRLFCRLF ++ Pl ++ t) = Pl ++ t := by
  have hl : (H ++ CRLFCRLF).length = H.length + 4 := by simp [CRLFCRLF]
  unfold payload_of_stream
  rw [List.append_assoc (H ++ CRLFCRLF) Pl t, first_occurrence_marker H Pl (Pl ++ t) hfirst]
  simp only []
  rw [← hl, List.drop_left]

/-- The bytes written during a good upload are the payload of the first chunk
followed by the other chunks, which is also the payload of the concatenated
stream. -/
theorem good_upload_written (P : Platform) (chunks : List (List Nat))
    (h : GoodUpload P chunks) :
    written_bytes (trace P) = some (expected_payload chunks) ∧
    expected_payload chunks = payload_of_stream chunks.flatten := by
  obtain ⟨hrecvs, hdecl, hint, hne, ⟨H, Pl, cs, hch, hnul, hfirst⟩, hopen⟩ := h
  subst hch
  have hl := marker_chunk_length H Pl
  rw [List.flatten_cons, List.length_append, hl] at hdecl
  have hcl : content_lenght P = P.content_len := by
    unfold content_lenght
    exact wrap32_of_bounds (by omega) (by omega)
  have hp1 : payload_of_stream (H ++ CRLFCRLF ++ Pl) = Pl := by
    have := payload_of_stream_marker H Pl [] hfirst
    simpa using this
  have hexp : expected_payload ((H ++ CRLFCRLF ++ Pl) :: cs) = Pl ++ cs.flatten := by
    simp only [expected_payload, hp1]
  refine ⟨?_, ?_⟩
  · rw [hexp]
    have hwr : wrap32 ((Locals.init P).content_received + (Pl.length : Int)) = (Pl.length : Int) := by
      simp only [Locals.init, zero_add]
      exact wrap32_of_bounds (by omega) (by omega)
    obtain ⟨hw, s1, hs1⟩ := ota_loop_stream P cs
      { ota_buff := store (Locals.init P).ota_buff (H ++ CRLFCRLF ++ Pl)
        content_received := (Pl.length : Int)
        is_req_body_started := true
        ota_handle := some P.ota_begin_handle
        writes := (Locals.init P).writes + 1 }
      rfl (by simp only []; omega) (by simp only []; rw [hcl]; omega)
      (fun x hx => hne x (List.mem_cons_of_mem _ hx))
    unfold trace http_server_OTA_update_handler
    rw [hrecvs, List.map_cons]
    unfold ota_loop
    rw [loop_body_first_chunk P H Pl (Locals.init P) hnul hfirst (by omega) rfl hopen]
    simp only [hwr, RecvOutcome.data]
    rw [if_pos (by rw [hcl]; constructor <;> omega)]
    rcases hloop : ota_loop P (cs.map RecvOutcome.data)
      { ota_buff := store (Locals.init P).ota_buff (H ++ CRLFCRLF ++ Pl)
        content_received := (Pl.length : Int)
        is_req_body_started := true
        ota_handle := some P.ota_begin_handle
        writes := (Locals.init P).writes + 1 } with ⟨evs1, f1⟩
    rw [hloop] at hw hs1
    simp only [] at hw hs1 ⊢
    subst hs1
    simp only []
    have hfin := written_bytes_append evs1 (finish P s1) _ _ hw (written_bytes_finish P s1)
    rw [List.append_nil] at hfin
    simp only [List.cons_append, List.nil_append]
    rw [written_bytes_skip (Event.esp_ota_get_next_update_partition _) _ rfl,
      written_bytes_skip (Event.httpd_req_recv _ _) _ rfl,
      written_bytes_skip (Event.esp_ota_begin _ _) _ rfl,
      written_bytes_write, hfin]
    rfl
  · rw [hexp, List.flatten_cons]
    exact (payload_of_stream_marker H Pl cs.flatten hfirst).symm

set_option maxRecDepth 100000 in
/-- Counterexample to C1 as stated: the declared length is 5 and the reads deliver
CR LF CR LF 'A', then "BCDEF", then "G" (non-empty chunks of at most 1024 bytes,
the marker in the first one, every call succeeding).  After the second chunk
`content_received` is 6, not below the declared length, so the loop ends and "G"
is never read: the writes carry "ABCDEF", not "ABCDEFG".

Three more uploads, each with the marker in its first chunk and every call
succeeding, on which the writes differ from the expected payload: a declared
length of 2^31, which `content_lenght` holds as a negative `int`, so that the
loop ends after the first chunk; a header block with an earlier CR LF CR; and a
header block with a NUL byte. -/
theorem writes_stop_at_declared_length :
    0 < (sample 5 (overlong_chunks.map RecvOutcome.data) ESP_OK ESP_OK ESP_OK).content_len ∧
    (∀ c ∈ overlong_chunks, c ≠ [] ∧ c.length ≤ 1024) ∧
    first_occurrence CRLFCRLF tiny_upload = some 0 ∧
    expected_payload overlong_chunks = [65, 66, 67, 68, 69, 70, 71] ∧
    written_bytes (trace (sample 5 (overlong_chunks.map RecvOutcome.data) ESP_OK ESP_OK ESP_OK))
      = some [65, 66, 67, 68, 69, 70] ∧
    written_bytes (trace (sample 5 (overlong_chunks.map RecvOutcome.data) ESP_OK ESP_OK ESP_OK))
      ≠ some (expected_payload overlong_chunks) ∧
    (expected_payload [tiny_upload, [66]] = [65, 66] ∧
      written_bytes (trace (sample 2147483648 [.data tiny_upload, .data [66]]
        ESP_OK ESP_OK ESP_OK)) = some [65]) ∧
    (expected_payload [early_cr_upload] = [70, 87] ∧
      written_bytes (trace (sample 10 [.data early_cr_upload] ESP_OK ESP_OK ESP_OK))
        = some [13, 10, 13, 10, 70, 87]) ∧
    (expected_payload [nul_header_upload] = [70, 87] ∧
      written_bytes (trace (sample 7 [.data nul_header_upload] ESP_OK ESP_OK ESP_OK)) = none) := by
  refine ⟨by decide, by decide, by decide, by decide, by decide, by decide,
    ⟨by decide, by decide⟩, ⟨by decide, by decide⟩, ⟨by decide, by decide⟩⟩

/-- C1 (amended): for a declared content length below 2^31 and a sequence of
non-empty chunks, no longer in all than the declared length, delivered without
timeout or error and followed by the end of the stream, whose first chunk is a
header block without NUL and without an earlier CR LF CR, the marker CR LF CR LF
and a payload, and with `esp_ota_begin` succeeding: the concatenation, in call
order, of the byte ranges passed to `esp_ota_write` is the concatenation of the
chunks with the first chunk's prefix up to and including the marker removed; and
two such uploads with the same concatenated stream write the same bytes. -/
theorem chunked_upload_writes_payload (P Q : Platform) (chunks chunks2 : List (List Nat))
    (hP : GoodUpload P chunks) (hQ : GoodUpload Q chunks2)
    (hsame : chunks2.flatten = chunks.flatten) :
    written_bytes (trace P) = some (expected_payload chunks) ∧
    written_bytes (trace Q) = written_bytes (trace P) := by
  obtain ⟨h1, h2⟩ := good_upload_written P chunks hP
  obtain ⟨h3, h4⟩ := good_upload_written Q chunks2 hQ
  refine ⟨h1, ?_⟩
  rw [h1, h3, h2, h4, hsame]

set_option maxRecDepth 100000 in
/-- Witness for C1 (amended): the 23-byte upload "header" CR LF CR LF
"FIRMWAREBYTES", delivered as one chunk and as two chunks. -/
theorem chunked_upload_writes_payload_witness :
    written_bytes (trace (sample 23 (firmware_one_chunk.map RecvOutcome.data)
        ESP_OK ESP_OK ESP_OK)) = some (expected_payload firmware_one_chunk) ∧
    written_bytes (trace (sample 23 (firmware_two_chunks.map RecvOutcome.data)
        ESP_OK ESP_OK ESP_OK)) =
      written_bytes (trace (sample 23 (firmware_one_chunk.map RecvOutcome.data)
        ESP_OK ESP_OK ESP_OK)) :=
  chunked_upload_writes_payload
    (sample 23 (firmware_one_chunk.map RecvOutcome.data) ESP_OK ESP_OK ESP_OK)
    (sample 23 (firmware_two_chunks.map RecvOutcome.data) ESP_OK ESP_OK ESP_OK)
    firmware_one_chunk firmware_two_chunks
    ⟨rfl, by decide, by decide, by decide,
      ⟨sample_header, sample_firmware, [], rfl, by decide, by decide⟩, rfl⟩
    ⟨rfl, by decide, by decide, by decide,
      ⟨sample_header, [70, 73, 82], [[77, 87, 65, 82, 69, 66, 89, 84, 69, 83]], rfl,
        by decide, by decide⟩, rfl⟩
    (by decide)

/-! ## Results of the writes -/

theorem loop_body_write_ret (P : Platform) (w : Nat → Int) (r : RecvOutcome) (s : Locals) :
    (loop_body { P with ota_write_ret := w } r s).1.map forget_write_ret
      = (loop_body P r s).1.map forget_write_ret ∧
    (loop_body { P with ota_write_ret := w } r s).2 = (loop_body P r s).2 := by
  unfold loop_body content_lenght
  simp only []
  split_ifs <;> simp [forget_write_ret]

theorem ota_loop_write_ret (P : Platform) (w : Nat → Int) :
    ∀ (rs : List RecvOutcome) (s : Locals),
      (ota_loop { P with ota_write_ret := w } rs s).1.map forget_write_ret
        = (ota_loop P rs s).1.map forget_write_ret ∧
      (ota_loop { P with ota_write_ret := w } rs s).2 = (ota_loop P rs s).2 := by
  intro rs
  induction rs with
  | nil => intro s; exact loop_body_write_ret P w _ s
  | cons r rest ih =>
    intro s
    obtain ⟨hb1, hb2⟩ := loop_body_write_ret P w r s
    unfold ota_loop
    rcases hlb : loop_body P r s with ⟨evs, f⟩
    rcases hlb2 : loop_body { P with ota_write_ret := w } r s with ⟨evs2, f2⟩
    rw [hlb, hlb2] at hb1 hb2
    simp only [] at hb1 hb2
    subst hb2
    cases f2 with
    | ret code => exact ⟨hb1, rfl⟩
    | cond s1 =>
      have hc : content_lenght { P with ota_write_ret := w } = content_lenght P := rfl
      simp only [hc]
      split_ifs
      · obtain ⟨ih1, ih2⟩ := ih s1
        rcases hl : ota_loop P rest s1 with ⟨evs1, f1⟩
        rcases hl2 : ota_loop { P with ota_write_ret := w } rest s1 with ⟨evs3, f3⟩
        rw [hl, hl2] at ih1 ih2
        simp only [] at ih1 ih2 ⊢
        exact ⟨by rw [List.map_append, List.map_append, hb1, ih1], ih2⟩
      · exact ⟨hb1, rfl⟩

theorem posted_forget_write_ret (evs : List Event) :
    posted (evs.map forget_write_ret) = posted evs := by
  induction evs with
  | nil => rfl
  | cons e evs ih => cases e <;> simp [posted, forget_write_ret, ih]

set_option maxRecDepth 100000 in
/-- Counterexample to C11 as stated: the first `esp_ota_write` call returns
`ESP_FAIL`; the handler goes on reading, issues two more writes, calls
`esp_ota_end` and `esp_ota_set_boot_partition`, which return `ESP_OK`, and posts
`HTTP_MSG_OTA_UPDATE_SUCCESSFUL`. -/
theorem write_error_is_not_fatal :
    http_server_OTA_update_handler sample_write_error =
      ([.esp_ota_get_next_update_partition 7, .httpd_req_recv 9 5, .esp_ota_begin 7 0,
        .esp_ota_write (some 1) (.buf 4) 1 (some [65]) ESP_FAIL, .httpd_req_recv 9 4,
        .esp_ota_write (some 1) (.buf 0) 4 (some [66, 67, 68, 69]) 0, .httpd_req_recv 9 0,
        .esp_ota_write (some 1) (.buf 0) 0 (some []) 0, .esp_ota_end (some 1) 0,
        .esp_ota_set_boot_partition 7 0, .esp_ota_get_boot_partition,
        .http_server_monitor_send_message .HTTP_MSG_OTA_UPDATE_SUCCESSFUL], ESP_OK) ∧
    ESP_FAIL ≠ ESP_OK ∧
    http_server_message_e.HTTP_MSG_OTA_UPDATE_FAILED ∉ posted (trace sample_write_error) := by
  refine ⟨by decide, by decide, by decide⟩

/-- C11 (amended): an error returned by `esp_ota_write` is not fatal to the
session, the handler ignores the result of every `esp_ota_write` call: whatever
the writes return, the handler makes the same calls with the same arguments and
the same other results (further reads and writes, `esp_ota_end`,
`esp_ota_set_boot_partition`), posts the same message and returns the same
value. -/
theorem write_results_are_ignored (P : Platform) (w : Nat → Int) :
    (trace { P with ota_write_ret := w }).map forget_write_ret
      = (trace P).map forget_write_ret ∧
    posted (trace { P with ota_write_ret := w }) = posted (trace P) ∧
    (http_server_OTA_update_handler { P with ota_write_ret := w }).2
      = (http_server_OTA_update_handler P).2 := by
  have key : (trace { P with ota_write_ret := w }).map forget_write_ret
        = (trace P).map forget_write_ret ∧
      (http_server_OTA_update_handler { P with ota_write_ret := w }).2
        = (http_server_OTA_update_handler P).2 := by
    obtain ⟨h1, h2⟩ := ota_loop_write_ret P w P.recvs (Locals.init P)
    have hi : Locals.init { P with ota_write_ret := w } = Locals.init P := rfl
    unfold trace http_server_OTA_update_handler
    simp only [hi]
    rcases hl : ota_loop P P.recvs (Locals.init P) with ⟨evs, f⟩
    rcases hl2 : ota_loop { P with ota_write_ret := w } P.recvs (Locals.init P) with ⟨evs2, f2⟩
    rw [hl, hl2] at h1 h2
    simp only [] at h1 h2
    subst h2
    cases f2 with
    | ret code =>
      simp only [List.map_cons, h1]
      exact ⟨trivial, trivial⟩
    | cond s =>
      have hf : finish { P with ota_write_ret := w } s = finish P s := rfl
      simp only [List.map_cons, List.map_append, h1, hf]
      exact ⟨trivial, trivial⟩
  refine ⟨key.1, ?_, key.2⟩
  rw [← posted_forget_write_ret (trace { P with ota_write_ret := w }), key.1,
    posted_forget_write_ret]

/-! ## The update partition -/

/-- Every call made by the loop is made by one execution of its body. -/
theorem ota_loop_mem (P : Platform) (e : Event) :
    ∀ (rs : List RecvOutcome) (s : Locals), e ∈ (ota_loop P rs s).1 →
      ∃ r s1, e ∈ (loop_body P r s1).1 := by
  intro rs
  induction rs with
  | nil => intro s h; exact ⟨_, s, h⟩
  | cons r rest ih =>
    intro s h
    unfold ota_loop at h
    rcases hlb : loop_body P r s with ⟨evs, f⟩
    rw [hlb] at h
    have hb : ∀ x ∈ evs, x ∈ (loop_body P r s).1 := by
      intro x hx; rw [hlb]; exact hx
    cases f with
    | ret code => exact ⟨r, s, hb e h⟩
    | cond s1 =>
      simp only [] at h
      split_ifs at h
      · have ih1 := ih s1
        rcases hl : ota_loop P rest s1 with ⟨evs1, f1⟩
        rw [hl] at h ih1
        simp only [List.mem_append] at h
        rcases h with h | h
        · exact ⟨r, s, hb e h⟩
        · exact ih1 h
      · exact ⟨r, s, hb e h⟩

theorem loop_body_begin_mem (P : Platform) (r : RecvOutcome) (s : Locals) (p : Nat) (c : Int)
    (h : Event.esp_ota_begin p c ∈ (loop_body P r s).1) :
    p = P.next_update_partition ∧ c = P.ota_begin_ret := by
  unfold loop_body at h
  simp only [] at h
  split_ifs at h <;> simp at h <;> exact h

theorem countP_get_next_loop (evs : List Event) (h : ∀ e ∈ evs, loop_event e = true) :
    evs.countP is_get_next = 0 := by
  rw [List.countP_eq_zero]
  intro e he
  have := h e he
  cases e <;> simp_all [loop_event, is_get_next]

theorem countP_get_next_finish (P : Platform) (s : Locals) :
    (finish P s).countP is_get_next = 0 := by
  unfold finish
  simp only []
  split_ifs <;> simp [List.countP_cons, is_get_next]

/-- C12: in every run the target partition is obtained exactly once, by the first
call of the run (so before any read or write), and the partition passed to
`esp_ota_begin` and the one passed to `esp_ota_set_boot_partition` are both the
value that this call returned. -/
theorem update_partition_is_held_for_the_run (P : Platform) :
    (trace P).head? = some (Event.esp_ota_get_next_update_partition P.next_update_partition) ∧
    (trace P).countP is_get_next = 1 ∧
    (∀ p r, Event.esp_ota_begin p r ∈ trace P → p = P.next_update_partition) ∧
    (∀ p r, Event.esp_ota_set_boot_partition p r ∈ trace P → p = P.next_update_partition) := by
  refine ⟨?_, ?_, ?_, ?_⟩
  · unfold trace
    rcases handler_cases P with ⟨evs, -, -, hrun⟩ | ⟨evs, s, -, -, hrun⟩ <;> rw [hrun] <;> rfl
  · unfold trace
    rcases handler_cases P with ⟨evs, hev, -, hrun⟩ | ⟨evs, s, hev, -, hrun⟩
    · rw [hrun]
      simp [List.countP_cons, is_get_next, countP_get_next_loop evs hev]
    · rw [hrun]
      simp [List.countP_cons, List.countP_append, is_get_next, countP_get_next_loop evs hev,
        countP_get_next_finish P s]
  · intro p r h
    have hloop : Event.esp_ota_begin p r ∈ (ota_loop P P.recvs (Locals.init P)).1 := by
      unfold trace at h
      rcases handler_cases P with ⟨evs, -, hl, hrun⟩ | ⟨evs, s, -, hl, hrun⟩
      · rw [hrun] at h
        rw [hl]
        simpa using h
      · rw [hrun] at h
        rw [hl]
        simp only [List.mem_cons, List.mem_append] at h
        rcases h with h | h | h
        · simp at h
        · exact h
        · unfold finish at h
          simp only [] at h
          split_ifs at h <;> simp at h
    obtain ⟨r0, s1, hb⟩ := ota_loop_mem P _ _ _ hloop
    exact (loop_body_begin_mem P r0 s1 p r hb).1
  · intro p r h
    obtain ⟨evs, s, -, -, -, -, hfin⟩ := fell_through P _ h rfl (by simp)
    unfold finish at hfin
    simp only [] at hfin
    split_ifs at hfin <;> simp at hfin <;> exact hfin.1

set_option maxRecDepth 100000 in
/-- Witness for C12: the five-byte upload on which every call succeeds; partition 7
is looked up first and once, opened, and set as boot partition. -/
theorem update_partition_is_held_for_the_run_witness :
    (trace (sample 5 [.data tiny_upload] ESP_OK ESP_OK ESP_OK)).head?
      = some (Event.esp_ota_get_next_update_partition 7) ∧
    (trace (sample 5 [.data tiny_upload] ESP_OK ESP_OK ESP_OK)).countP is_get_next = 1 ∧
    (7 : Nat) = (sample 5 [.data tiny_upload] ESP_OK ESP_OK ESP_OK).next_update_partition ∧
    (7 : Nat) = (sample 5 [.data tiny_upload] ESP_OK ESP_OK ESP_OK).next_update_partition :=
  ⟨(update_partition_is_held_for_the_run (sample 5 [.data tiny_upload] ESP_OK ESP_OK ESP_OK)).1,
    (update_partition_is_held_for_the_run (sample 5 [.data tiny_upload] ESP_OK ESP_OK ESP_OK)).2.1,
    (update_partition_is_held_for_the_run (sample 5 [.data tiny_upload] ESP_OK ESP_OK ESP_OK)).2.2.1
      7 0 (by decide),
    (update_partition_is_held_for_the_run (sample 5 [.data tiny_upload] ESP_OK ESP_OK ESP_OK)).2.2.2
      7 0 (by decide)⟩

/-! ## Order of the OTA calls -/

theorem loop_body_started (P : Platform) (r : RecvOutcome) (s s1 : Locals)
    (hs : s.is_req_body_started = true) (h : (loop_body P r s).2 = .cond s1) :
    s1.is_req_body_started = true ∧ ∀ e ∈ (loop_body P r s).1, is_begin e = false := by
  unfold loop_body at h ⊢
  simp only [hs] at h ⊢
  split_ifs at h ⊢ <;> simp_all [is_begin] <;> first | rfl | (subst h; rfl)

theorem loop_body_started_ret (P : Platform) (r : RecvOutcome) (s : Locals)
    (hs : s.is_req_body_started = true) :
    ∀ e ∈ (loop_body P r s).1, is_begin e = false := by
  unfold loop_body
  simp only [hs]
  split_ifs <;> simp_all [is_begin]

/-- Once the body of the request has started, the loop makes no `esp_ota_begin`
call. -/
theorem ota_loop_started (P : Platform) :
    ∀ (rs : List RecvOutcome) (s : Locals), s.is_req_body_started = true →
      ∀ e ∈ (ota_loop P rs s).1, is_begin e = false := by
  intro rs
  induction rs with
  | nil => intro s hs; exact loop_body_started_ret P _ s hs
  | cons r rest ih =>
    intro s hs e he
    have hb := loop_body_started_ret P r s hs
    have hst := loop_body_started P r s
    unfold ota_loop at he
    rcases hlb : loop_body P r s with ⟨evs, f⟩
    rw [hlb] at he hb hst
    cases f with
    | ret code => exact hb e he
    | cond s1 =>
      simp only [] at he
      split_ifs at he
      · have ih1 := ih s1 (hst s1 hs rfl).1
        rcases hl : ota_loop P rest s1 with ⟨evs1, f1⟩
        rw [hl] at he ih1
        simp only [List.mem_append] at he
        rcases he with he | he
        · exact hb e he
        · exact ih1 e he
      · exact hb e he

theorem loop_body_countP_begin (P : Platform) (r : RecvOutcome) (s : Locals) :
    (loop_body P r s).1.countP is_begin ≤ 1 := by
  unfold loop_body
  simp only []
  split_ifs <;> simp [List.countP_cons, is_begin]

theorem loop_body_positive_started (P : Platform) (r : RecvOutcome) (s s1 : Locals)
    (hr : 0 ≤ r.ret) (h : (loop_body P r s).2 = .cond s1) :
    s1.is_req_body_started = true := by
  unfold loop_body at h
  simp only [] at h
  split_ifs at h <;>
    first
    | omega
    | (simp only [Flow.cond.injEq] at h
       subst h
       first | rfl | simp_all)

theorem ota_loop_countP_begin (P : Platform) (rs : List RecvOutcome) (s : Locals) :
    (ota_loop P rs s).1.countP is_begin ≤ 1 := by
  cases rs with
  | nil => exact loop_body_countP_begin P _ s
  | cons r rest =>
    have hb := loop_body_countP_begin P r s
    have hst := loop_body_positive_started P r s
    unfold ota_loop
    rcases hlb : loop_body P r s with ⟨evs, f⟩
    rw [hlb] at hb hst
    cases f with
    | ret code => exact hb
    | cond s1 =>
      simp only []
      split_ifs with hc
      · have hno := ota_loop_started P rest s1 (hst s1 (by omega) rfl)
        rcases hl : ota_loop P rest s1 with ⟨evs1, f1⟩
        rw [hl] at hno
        simp only [] at hno hb ⊢
        have h0 : evs1.countP is_begin = 0 := by
          rw [List.countP_eq_zero]
          intro e he
          simp [hno e he]
        rw [List.countP_append, h0]
        exact hb
      · exact hb

theorem ota_loop_ret_first (P : Platform) (rs : List RecvOutcome) (s : Locals) (code : Int)
    (h : (loop_body P (rs.headD RecvOutcome.eof) s).2 = .ret code) :
    ota_loop P rs s = loop_body P (rs.headD RecvOutcome.eof) s := by
  cases rs with
  | nil => rfl
  | cons r rest =>
    simp only [List.headD_cons] at h ⊢
    unfold ota_loop
    rcases hlb : loop_body P r s with ⟨evs, f⟩
    rw [hlb] at h
    simp only [] at h
    subst h
    rfl

/-- From the start of a request, either the loop makes no `esp_ota_write` call, or
its calls begin with a read followed by an `esp_ota_begin` that returned
`ESP_OK`. -/
theorem ota_loop_first_shape (P : Platform) (rs : List RecvOutcome) (s : Locals)
    (hs : s.is_req_body_started = false) :
    (∀ e ∈ (ota_loop P rs s).1, is_write e = false) ∨
    ∃ n c tail, (ota_loop P rs s).1 =
      Event.httpd_req_recv n c :: Event.esp_ota_begin P.next_update_partition ESP_OK :: tail := by
  obtain ⟨⟨tail, htail⟩, hstop⟩ := ota_loop_first P rs s
  have hret := ota_loop_ret_first P rs s
  by_cases hneg : (rs.headD RecvOutcome.eof).ret < 0
  · left
    rw [hstop (by omega), loop_body_neg P _ s hneg]
    intro e he
    simp only [List.mem_singleton] at he
    subst he
    rfl
  · by_cases hb : P.ota_begin_ret = ESP_OK
    · right
      refine ⟨MIN (content_lenght P) sizeof_ota_buff, (rs.headD RecvOutcome.eof).ret, ?_⟩
      rw [htail]
      unfold loop_body
      simp only [hs, hb]
      rw [if_neg hneg]
      simp
    · left
      have hlb : loop_body P (rs.headD RecvOutcome.eof) s =
          ([Event.httpd_req_recv (MIN (content_lenght P) sizeof_ota_buff)
              (rs.headD RecvOutcome.eof).ret,
            Event.esp_ota_begin P.next_update_partition P.ota_begin_ret], .ret ESP_FAIL) := by
        unfold loop_body
        simp only [hs]
        rw [if_neg hneg]
        simp [hb]
      rw [hret ESP_FAIL (by rw [hlb]), hlb]
      intro e he
      simp only [List.mem_cons, List.mem_singleton, List.not_mem_nil, or_false] at he
      rcases he with he | he <;> subst he <;> rfl

/-- The parts of the call discipline that hold in every run: `esp_ota_begin` and
`esp_ota_end` are each called at most once, and every `esp_ota_write` call has an
`esp_ota_begin` call that returned `ESP_OK` before it. -/
theorem ota_calls_in_order (P : Platform) :
    (trace P).countP is_begin ≤ 1 ∧
    (trace P).countP is_end ≤ 1 ∧
    (∀ pre post h d sz b r, trace P = pre ++ Event.esp_ota_write h d sz b r :: post →
      ∃ p, Event.esp_ota_begin p ESP_OK ∈ pre) := by
  have hcb := ota_loop_countP_begin P P.recvs (Locals.init P)
  have hfb : ∀ s, (finish P s).countP is_begin = 0 := by
    intro s
    unfold finish
    simp only []
    split_ifs <;> simp [List.countP_cons, is_begin]
  have hfe : ∀ s, (finish P s).countP is_end = 1 := by
    intro s
    unfold finish
    simp only []
    split_ifs <;> simp [List.countP_cons, is_end]
  have hle : ∀ evs : List Event, (∀ e ∈ evs, loop_event e = true) → evs.countP is_end = 0 := by
    intro evs hev
    rw [List.countP_eq_zero]
    intro e he
    have := hev e he
    cases e <;> simp_all [loop_event, is_end]
  refine ⟨?_, ?_, ?_⟩
  · unfold trace
    rcases handler_cases P with ⟨evs, -, hl, hrun⟩ | ⟨evs, s, -, hl, hrun⟩
    · rw [hrun]
      rw [hl] at hcb
      simpa [List.countP_cons, is_begin] using hcb
    · rw [hrun]
      rw [hl] at hcb
      simpa [List.countP_cons, List.countP_append, is_begin, hfb s] using hcb
  · unfold trace
    rcases handler_cases P with ⟨evs, hev, -, hrun⟩ | ⟨evs, s, hev, -, hrun⟩
    · rw [hrun]
      simp [List.countP_cons, is_end, hle evs hev]
    · rw [hrun]
      simp [List.countP_cons, List.countP_append, is_end, hle evs hev, hfe s]
  · intro pre post h d sz b r htr
    have hfw : ∀ s, ∀ e ∈ finish P s, is_write e = false := by
      intro s
      unfold finish
      simp only []
      split_ifs <;> simp [is_write]
    have hmem : Event.esp_ota_write h d sz b r ∈ trace P := by
      rw [htr]; simp
    rcases ota_loop_first_shape P P.recvs (Locals.init P) rfl with hno | ⟨n, c, tail, hshape⟩
    · exfalso
      unfold trace at hmem
      rcases handler_cases P with ⟨evs, -, hl, hrun⟩ | ⟨evs, s, -, hl, hrun⟩
      · rw [hrun] at hmem
        rw [hl] at hno
        simp only [List.mem_cons] at hmem
        rcases hmem with hm | hm
        · simp at hm
        · simpa [is_write] using hno _ hm
      · rw [hrun] at hmem
        rw [hl] at hno
        simp only [List.mem_cons, List.mem_append] at hmem
        rcases hmem with hm | hm | hm
        · simp at hm
        · simpa [is_write] using hno _ hm
        · simpa [is_write] using hfw s _ hm
    · refine ⟨P.next_update_partition, ?_⟩
      have htrace : ∃ rest, trace P = Event.esp_ota_get_next_update_partition P.next_update_partition
          :: Event.httpd_req_recv n c
          :: Event.esp_ota_begin P.next_update_partition ESP_OK :: rest := by
        unfold trace
        rcases handler_cases P with ⟨evs, -, hl, hrun⟩ | ⟨evs, s, -, hl, hrun⟩
        · rw [hrun]
          rw [hl] at hshape
          simp only [] at hshape
          exact ⟨tail, by rw [hshape]⟩
        · rw [hrun]
          rw [hl] at hshape
          simp only [] at hshape
          exact ⟨tail ++ finish P s, by rw [hshape]; rfl⟩
      obtain ⟨rest, hrest⟩ := htrace
      rw [hrest] at htr
      rcases pre with _ | ⟨x, _ | ⟨y, _ | ⟨z, pre⟩⟩⟩
      · simp at htr
      · simp at htr
      · simp at htr
      · simp only [List.cons_append, List.cons.injEq] at htr
        rw [← htr.2.2.1]
        simp

set_option maxRecDepth 100000 in
/-- C13: the claim does not hold of the code.  The first read returns
`HTTPD_SOCK_ERR_TIMEOUT`; `continue` leaves the `do ... while` loop, and
`esp_ota_end` is called on the uninitialised handle although the run contains no
`esp_ota_begin` call at all. -/
theorem esp_ota_end_without_esp_ota_begin :
    trace sample_first_read_timeout =
      [.esp_ota_get_next_update_partition 7, .httpd_req_recv 5 (-3), .esp_ota_end none 0,
        .esp_ota_set_boot_partition 7 0, .esp_ota_get_boot_partition,
        .http_server_monitor_send_message .HTTP_MSG_OTA_UPDATE_SUCCESSFUL] ∧
    (trace sample_first_read_timeout).any is_begin = false ∧
    (trace sample_first_read_timeout).countP is_end = 1 := by
  refine ⟨by decide, by decide, by decide⟩

/-! ## The received-byte counter -/

/-- When `strstr` finds CR LF CR early enough for four bytes to follow its start
within the received bytes, `body_part_len` is the number of bytes after them and
is not negative. -/
theorem body_part_len_of_strstr (addr : Nat) (recv_len : Int) (ota_buff : List Nat) (i : Nat)
    (h : strstr needle ota_buff = some i) (h4 : (i : Int) + 4 ≤ recv_len)
    (hr : recv_len < 2147483648) :
    body_part_len addr recv_len ota_buff = recv_len - ((i : Int) + 4) ∧
    0 ≤ body_part_len addr recv_len ota_buff := by
  have hin : wrap32 ((i + 4 : Nat) : Int) = ((i + 4 : Nat) : Int) :=
    wrap32_of_bounds (by omega) (by omega)
  unfold body_part_len body_start
  simp only [h, ptr_diff]
  rw [hin, wrap32_of_bounds (by omega) (by omega)]
  constructor <;> omega

set_option maxRecDepth 100000 in
/-- C14: the claim does not hold of the code.  The first chunk is the nine bytes
"header" CR LF CR, so the three bytes that the code searches for occur within
the received bytes, at index 6; the code adds 4 and computes the payload offset
10, above `recv_len = 9`: `body_part_len` is -1, the length passed to the first
`esp_ota_write` is -1 converted to `size_t`, and `content_received` goes from 0
to -1. -/
theorem marker_at_chunk_end_gives_negative_length :
    cut_marker_chunk.length = 9 ∧
    first_occurrence needle cut_marker_chunk = some 6 ∧
    ptr_diff sample_cut_marker.ota_buff_addr
      (body_start (store sample_cut_marker.stack cut_marker_chunk)) = 10 ∧
    body_part_len sample_cut_marker.ota_buff_addr 9
      (store sample_cut_marker.stack cut_marker_chunk) = -1 ∧
    loop_body sample_cut_marker (.data cut_marker_chunk) (Locals.init sample_cut_marker) =
      ([.httpd_req_recv 23 9, .esp_ota_begin 7 0,
        .esp_ota_write (some 1) (.buf 10) 4294967295 none 0],
       .cond { ota_buff := store sample_cut_marker.stack cut_marker_chunk
               content_received := -1
               is_req_body_started := true
               ota_handle := some 1
               writes := 1 }) ∧
    (written (trace sample_cut_marker)).head? = some none := by
  refine ⟨by decide, by decide, by decide, by decide, by decide, by decide⟩

end HttpServer
